import Mathlib

/-!
Shallow embedding of the motion-gated gesture classifier in
`src/gesture_recognizer.py` (class `MediaPipeGestureRecognizer`), together
with proofs checking the natural-language specification against it.

Modelling conventions:
* Python floats are modelled by `ℚ`; pixel coordinates and timestamps are `ℤ`.
* `int(x)` (Python truncation toward zero) is `pyInt`.
* The external OpenCV point tracker (`cv2.calcOpticalFlowPyrLK`) is a black
  box; its per-call outcome (exception, or a list of per-anchor
  status/delta results) is an input `FlowIn` of each frame.
* The external hand-landmark detector (MediaPipe) is a black box; each frame
  carries the list of detected 21-point landmark sets in pixel coordinates.
* Grayscale frames only matter through identity (they are stored and passed
  to the tracker), so they are opaque tokens `ℕ`.
* `np.hypot` (floating-point square root) is modelled by `ratSqrt`, a
  rational square root that is exact on perfect squares; all concrete
  inputs used in proofs make the radicand a perfect square.  Distance
  *comparisons* in the track manager (`np.hypot(...) ≤ 120`, and the greedy
  minimum) are modelled on squared distances, which is exact because
  `Real.sqrt` is monotone.
-/

/-- Python `int(...)` applied to a float: truncation toward zero
(`Int.tdiv` is the truncating division, and `q.den > 0`). -/
def pyInt (q : ℚ) : ℤ :=
  q.num.tdiv (q.den : ℤ)

/-- Digit-by-digit integer square root (structural recursion on a fuel
argument so that it reduces in the kernel); `isqrtFuel f n = ⌊√n⌋`
whenever `f ≥ n`. -/
def isqrtFuel : ℕ → ℕ → ℕ
  | 0, _ => 0
  | fuel + 1, n =>
      if n = 0 then 0
      else
        let r := 2 * isqrtFuel fuel (n / 4)
        if (r + 1) * (r + 1) ≤ n then r + 1 else r

/-- Integer square root (rounded down). -/
def isqrt (n : ℕ) : ℕ :=
  isqrtFuel n n

/-- Rational model of the floating-point square root: exact whenever the
argument is a perfect square of a rational, monotone approximation
otherwise.  Arguments below 0 map to 0 (never produced by the code). -/
def ratSqrt (q : ℚ) : ℚ :=
  if q ≤ 0 then 0 else ((isqrt (q.num.toNat * q.den) : ℚ) / (q.den : ℚ))

/-- `np.hypot`, on rational coordinates. -/
def hypotQ (a b : ℚ) : ℚ :=
  ratSqrt (a * a + b * b)

/-- Insertion into a sorted rational list (helper for sorting). -/
def insertSorted (x : ℚ) : List ℚ → List ℚ
  | [] => [x]
  | y :: ys => if x ≤ y then x :: y :: ys else y :: insertSorted x ys

/-- Insertion sort of a rational list (ascending), as used by the numpy
order statistics below. -/
def sortQ (l : List ℚ) : List ℚ :=
  l.foldr insertSorted []

/-- `np.median` on a nonempty list ([] ↦ 0, a case the code never reaches):
middle element for odd length, mean of the two middle elements for even
length. -/
def medianQ (l : List ℚ) : ℚ :=
  let s := sortQ l
  let n := s.length
  if n = 0 then 0
  else if n % 2 = 1 then s.getD (n / 2) 0
  else (s.getD (n / 2 - 1) 0 + s.getD (n / 2) 0) / 2

/-- `np.percentile(l, p)` with the default linear interpolation:
position `(n-1)·p/100` on the sorted list, linearly interpolated between
the two neighbouring order statistics. -/
def percentileQ (l : List ℚ) (p : ℚ) : ℚ :=
  let s := sortQ l
  let n := s.length
  if n = 0 then 0
  else
    let pos : ℚ := ((n : ℚ) - 1) * p / 100
    let i : ℕ := (⌊pos⌋).toNat
    let a := s.getD i 0
    let b := s.getD (min (i + 1) (n - 1)) 0
    a + (pos - (i : ℚ)) * (b - a)

/-- `MediaPipeGestureRecognizer._robust_median` (lines 140-149): raw median,
interquartile range clamped below at `1e-6`, keep the values within
`1.5·iqr` of the median, return the median of the kept values (falling back
to the raw median when nothing is kept, and to `0.0` on an empty input). -/
def robustMedian (values : List ℚ) : ℚ :=
  if values = [] then 0
  else
    let med := medianQ values
    let q1 := percentileQ values 25
    let q3 := percentileQ values 75
    let iqr := max (1 / 1000000) (q3 - q1)
    let keep := values.filter (fun v => |v - med| ≤ 3 / 2 * iqr)
    if keep = [] then med else medianQ keep

/-- `MediaPipeGestureRecognizer._consistent_sign` (lines 195-201), called
with `min_count = self.swipe_consistent_min = 4`. -/
def consistentSign (values : List ℚ) (minCount : ℕ) : Bool :=
  if values = [] then false
  else
    let pos := (values.filter (fun v => 0 < v)).length
    let neg := (values.filter (fun v => v < 0)).length
    decide (minCount ≤ pos) || decide (minCount ≤ neg)

/-- Append to a `collections.deque` with `maxlen = cap`: keep the most
recent `cap` entries. -/
def pushCap {α : Type} (cap : ℕ) (l : List α) (x : α) : List α :=
  let l2 := l ++ [x]
  l2.drop (l2.length - cap)

/-- The `down_path_sum` loop of `_infer` (lines 302-307): walk the
timestamped history from the most recent entry backwards, stop at the first
entry older than 250 ms, and sum the positive samples.  The argument is the
already-reversed `zip` of `dy_hist_norm` and `dy_hist_t`. -/
def downPathSum (now : ℤ) : List (ℚ × ℤ) → ℚ
  | [] => 0
  | (v, t) :: rest =>
      if 250 < now - t then 0
      else (if 0 < v then v else 0) + downPathSum now rest

/-- The five gesture labels the classifier can emit. -/
inductive Gesture where
  | swipe_up
  | swipe_down
  | swipe_left
  | swipe_right
  | open_palm
deriving DecidableEq, Repr

/-- The five command labels the classifier can emit. -/
inductive Cmd where
  | vol_up
  | vol_down
  | seek_back
  | seek_forward
  | toggle
deriving DecidableEq, Repr

/-- A landmark set: the 21 hand landmarks in pixel coordinates, in
MediaPipe's fixed anatomical order. -/
abbrev Pts := List (ℤ × ℤ)

/-- x coordinate of landmark `i` (`pts[i][0]`). -/
def ptx (pts : Pts) (i : ℕ) : ℤ :=
  (pts.getD i (0, 0)).1

/-- y coordinate of landmark `i` (`pts[i][1]`). -/
def pty (pts : Pts) (i : ℕ) : ℤ :=
  (pts.getD i (0, 0)).2

/-- `_is_finger_up(pts, tip, pip, delta=10)` (lines 108-110):
`pts[tip][1] < pts[pip][1] - delta`. -/
def fingerUpB (pts : Pts) (tip pip : ℕ) : Bool :=
  decide (pty pts tip < pty pts pip - 10)

/-- The count `four` of extended non-thumb fingers (lines 272-276). -/
def fourCount (pts : Pts) : ℕ :=
  (if fingerUpB pts 8 6 then 1 else 0) +
  (if fingerUpB pts 12 10 then 1 else 0) +
  (if fingerUpB pts 16 14 then 1 else 0) +
  (if fingerUpB pts 20 18 then 1 else 0)

/-- `_palm_center` (lines 112-117): truncated mean of landmarks 0, 5, 17
per axis. -/
def palmCenter (pts : Pts) : ℤ × ℤ :=
  (pyInt (((ptx pts 0 + ptx pts 5 + ptx pts 17 : ℤ) : ℚ) / 3),
   pyInt (((pty pts 0 + pty pts 5 + pty pts 17 : ℤ) : ℚ) / 3))

/-- `_hand_width` (lines 119-121): `abs(pts[17][0] - pts[5][0]) + 1e-6`. -/
def handWidth (pts : Pts) : ℚ :=
  |((ptx pts 17 - ptx pts 5 : ℤ) : ℚ)| + 1 / 1000000

/-- `_palm_spread` (lines 123-129): mean distance from the palm center to
the four fingertips, divided by the hand width. -/
def palmSpread (pts : Pts) (cx cy : ℤ) : ℚ :=
  let dists := [8, 12, 16, 20].map
    (fun t => hypotQ ((ptx pts t - cx : ℤ) : ℚ) ((pty pts t - cy : ℤ) : ℚ))
  let avg := dists.sum / 4
  avg / handWidth pts

/-- A `Track` entry: `{"center": ..., "last_seen_ms": ..., "armed": ...}`. -/
structure Track where
  center : ℤ × ℤ
  last_seen_ms : ℤ
  armed : Bool
deriving DecidableEq, Repr

/-- Per-frame outcome of the external sparse point tracker
(`cv2.calcOpticalFlowPyrLK`): either an exception, or one
(status, (dx, dy)) result per tracked anchor point. -/
inductive FlowIn where
  | fail
  | ok (results : List (Bool × ℚ × ℚ))
deriving DecidableEq, Repr

/-- The mutable per-instance state of `MediaPipeGestureRecognizer`
(initialised in `__init__`).  Constant parameters (thresholds, ratios,
window sizes) are inlined as literals where used. -/
structure RState where
  prev_gray : Option ℕ
  prev_points : Option (List (ℤ × ℤ))
  flow_window_dx : List ℚ
  flow_window_dy : List ℚ
  dy_ema : ℚ
  dx_ema : ℚ
  dy_gate_high : Bool
  dx_gate_high : Bool
  last_frame_ms : ℤ
  dy_hist_norm : List ℚ
  dy_hist_t : List ℤ
  open_palm_stable_cnt : ℕ
  last_motion_cmd_ms : ℤ
  last_spread : ℚ
  open_palm_armed : Bool
  tracks : List (ℕ × Track)
  next_track_id : ℕ
  primary_track_id : Option ℕ
  last_primary_set_ms : ℤ
  primary_last_center : Option (ℤ × ℤ)
  num_hands : ℕ
  last_cmd_ms : ℤ
  frame_count : ℕ
  start_time : ℚ
  fps : ℚ
deriving DecidableEq, Repr

/-- The state right after `__init__` (`t0` is the wall-clock second count at
construction time, used only by the FPS counter). -/
def initState (t0 : ℚ) : RState where
  prev_gray := none
  prev_points := none
  flow_window_dx := []
  flow_window_dy := []
  dy_ema := 0
  dx_ema := 0
  dy_gate_high := false
  dx_gate_high := false
  last_frame_ms := 0
  dy_hist_norm := []
  dy_hist_t := []
  open_palm_stable_cnt := 0
  last_motion_cmd_ms := 0
  last_spread := 0
  open_palm_armed := true
  tracks := []
  next_track_id := 1
  primary_track_id := none
  last_primary_set_ms := 0
  primary_last_center := none
  num_hands := 0
  last_cmd_ms := 0
  frame_count := 0
  start_time := t0
  fps := 0

/-- One frame of input to `process_frame`: the detector's landmark sets
(already in pixel coordinates), frame dimensions, the opaque grayscale
frame, the tracker outcome, and the two wall-clock reads
(`int(time.time()*1000)` and `time.time()`). -/
structure FrameIn where
  hands : List Pts
  w : ℤ
  h : ℤ
  gray : ℕ
  flowIn : FlowIn
  now_ms : ℤ
  now_s : ℚ
deriving DecidableEq, Repr

instance : Inhabited FrameIn :=
  ⟨⟨[], 0, 0, 0, FlowIn.fail, 0, 0⟩⟩

/-- The per-frame `detection_result` dict of `process_frame`. -/
structure DetRes where
  hand_present : Bool
  num_hands : ℕ
  gesture : Option Gesture
  cmd : Option Cmd
  primary_center : Option (ℤ × ℤ)
  fps : ℚ
deriving DecidableEq, Repr

/-- Look up a track id in the track map (Python dict access). -/
def lookupTrack (ts : List (ℕ × Track)) (t : ℕ) : Option Track :=
  (ts.find? (fun p => p.1 == t)).map (fun p => p.2)

/-- `self.tracks.get(tid, {}).get("armed", True)` (line 420). -/
def trackArmed (ts : List (ℕ × Track)) (t : ℕ) : Bool :=
  match lookupTrack ts t with
  | some tr => tr.armed
  | none => true

/-- In-place update of the value stored under one key of the track dict
(Python `self.tracks[tid][...] = ...`): rebuild the entry list with the
value function applied entrywise. -/
def mapEntry (f : ℕ × Track → Track) (ts : List (ℕ × Track)) :
    List (ℕ × Track) :=
  ts.map (fun p => (p.1, f p))

/-- `self.tracks[tid]["armed"] = False` guarded by `tid in self.tracks`
(line 427-428): update the entry if present, no-op otherwise. -/
def setArmedFalse (ts : List (ℕ × Track)) (t : ℕ) : List (ℕ × Track) :=
  mapEntry (fun p => if p.1 == t then { p.2 with armed := false } else p.2) ts

/-- `_update_prev` (lines 131-138). -/
def updatePrev (s : RState) (gray : ℕ) (points : List (ℤ × ℤ)) : RState :=
  if points = [] then { s with prev_gray := some gray, prev_points := none }
  else { s with prev_gray := some gray, prev_points := some points }

/-- The anchor list built by `_hand_flow` (lines 156-157): palm center
followed by wrist, the four MCP joints and the four fingertips. -/
def anchorsOf (pts : Pts) (cxcy : ℤ × ℤ) : List (ℤ × ℤ) :=
  cxcy :: ([0, 5, 9, 13, 17, 8, 12, 16, 20].map (fun i => pts.getD i (0, 0)))

/-- `_hand_flow` (lines 151-193).  On the first call (no previous frame) or
on a tracker exception it returns `(0, 0)` after storing the current
frame/anchors; otherwise it collects the deltas of the anchors whose
tracking status is 1, stores the current frame/anchors, takes the robust
median per axis and pushes it into the 4-sample flow windows.  A tracker
returning `None` arrays is modelled as `FlowIn.ok []` (no surviving
deltas), which the code treats identically. -/
def handFlow (s : RState) (gray : ℕ) (pts : Pts) (cxcy : ℤ × ℤ)
    (fin : FlowIn) : (ℚ × ℚ) × RState :=
  let anchors := anchorsOf pts cxcy
  if s.prev_gray = none ∨ s.prev_points = none then
    ((0, 0), updatePrev s gray anchors)
  else
    match fin with
    | FlowIn.fail => ((0, 0), updatePrev s gray anchors)
    | FlowIn.ok results =>
        let survivors := results.filter (fun r => r.1)
        let dxs := survivors.map (fun r => r.2.1)
        let dys := survivors.map (fun r => r.2.2)
        let dx := robustMedian dxs
        let dy := robustMedian dys
        let s1 := updatePrev s gray anchors
        let s2 := { s1 with
          flow_window_dx := pushCap 4 s1.flow_window_dx dx,
          flow_window_dy := pushCap 4 s1.flow_window_dy dy }
        ((dx, dy), s2)

/-- Result of `_update_tracks`: the updated track map, the next fresh id,
the per-detection assignment (track id for detection index 0, 1, ...) and
the track ids left unmatched by the greedy pass. -/
structure TrackUpd where
  tracks : List (ℕ × Track)
  nextId : ℕ
  assign : List ℕ
  unmatched : List ℕ
deriving DecidableEq, Repr

/-- Squared Euclidean distance between two integer centers.  The code
compares `np.hypot(dx, dy)` against `1e9` and `120`; comparing squares is
equivalent since the square root is monotone and both sides nonnegative. -/
def distSq (a b : ℤ × ℤ) : ℤ :=
  (a.1 - b.1) ^ 2 + (a.2 - b.2) ^ 2

/-- The inner minimum search of `_update_tracks` (lines 215-220): scan the
unmatched track ids, keep the strictly closest one.  `best_dist = 1e9`
becomes the squared bound `10^18`. -/
def bestMatch (ts : List (ℕ × Track)) (unmatched : List ℕ) (c : ℤ × ℤ) :
    Option ℕ × ℤ :=
  unmatched.foldl
    (fun acc tid =>
      match lookupTrack ts tid with
      | some tr =>
          let dsq := distSq c tr.center
          if dsq < acc.2 then (some tid, dsq) else acc
      | none => acc)
    (none, (10 : ℤ) ^ 18)

/-- In-place update of a matched track (lines 224-225): new center, new
`last_seen_ms`, `armed` untouched. -/
def updateCenterSeen (ts : List (ℕ × Track)) (tid : ℕ) (c : ℤ × ℤ)
    (now : ℤ) : List (ℕ × Track) :=
  mapEntry (fun p => if p.1 == tid then ⟨c, now, p.2.armed⟩ else p.2) ts

/-- The greedy per-detection loop of `_update_tracks` (lines 214-230). -/
def greedyAssign (ts : List (ℕ × Track)) (nid : ℕ) (unmatched : List ℕ)
    (now : ℤ) : List (ℤ × ℤ) → TrackUpd
  | [] => ⟨ts, nid, [], unmatched⟩
  | c :: rest =>
      let b := bestMatch ts unmatched c
      match b.1 with
      | some tid =>
          if b.2 ≤ 14400 then
            let r := greedyAssign (updateCenterSeen ts tid c now) nid
              (unmatched.erase tid) now rest
            { r with assign := tid :: r.assign }
          else
            let r := greedyAssign (ts ++ [(nid, ⟨c, now, true⟩)]) (nid + 1)
              unmatched now rest
            { r with assign := nid :: r.assign }
      | none =>
          let r := greedyAssign (ts ++ [(nid, ⟨c, now, true⟩)]) (nid + 1)
            unmatched now rest
          { r with assign := nid :: r.assign }

/-- The re-arming pass over one timed-out track (lines 232-235). -/
def rearmOne (now : ℤ) (ts : List (ℕ × Track)) (tid : ℕ) :
    List (ℕ × Track) :=
  mapEntry (fun p =>
    if p.1 == tid && decide (400 ≤ now - p.2.last_seen_ms)
    then { p.2 with armed := true } else p.2) ts

/-- `_update_tracks` (lines 211-236): greedy nearest-neighbour assignment
of detected centers to existing tracks (threshold 120 px), fresh tracks for
the rest, then re-arming of unmatched tracks not seen for ≥ 400 ms.  The
Python `set` of track ids is modelled as the key list in insertion order
(dict keys are unique in every reachable state). -/
def updateTracksCore (ts : List (ℕ × Track)) (nid : ℕ)
    (centers : List (ℤ × ℤ)) (now : ℤ) : TrackUpd :=
  let g := greedyAssign ts nid (ts.map (fun p => p.1)) now centers
  { g with tracks := g.unmatched.foldl (rearmOne now) g.tracks }

/-- Outcome of `_select_primary`: the chosen detection index plus the new
values of the three primary-selection fields of the state. -/
structure PrimSel where
  detIdx : Option ℕ
  primaryId : Option ℕ
  lastSet : ℤ
  lastCenter : Option (ℤ × ℤ)
deriving DecidableEq, Repr

/-- `area = max(1, (max(xs)-min(xs)) * (max(ys)-min(ys)))` over the 21
landmarks of one hand (lines 252-253). -/
def bboxArea (pts : Pts) : ℤ :=
  let xs := pts.map (fun p => p.1)
  let ys := pts.map (fun p => p.2)
  max 1 ((xs.foldl max (xs.headD 0) - xs.foldl min (xs.headD 0)) *
         (ys.foldl max (ys.headD 0) - ys.foldl min (ys.headD 0)))

/-- The largest-area scan of `_select_primary` (lines 250-258): first
detection index attaining the maximum bounding-box area, with the running
best area (initially `-1`). -/
def bestScan : List Pts → ℕ → Option ℕ → ℤ → Option ℕ × ℤ
  | [], _, bi, ba => (bi, ba)
  | p :: rest, idx, bi, ba =>
      if ba < bboxArea p then bestScan rest (idx + 1) (some idx) (bboxArea p)
      else bestScan rest (idx + 1) bi ba

/-- The largest-area branch of `_select_primary` (lines 249-264). -/
def selectLargest (primaryId : Option ℕ) (lastSet : ℤ)
    (lastCenter : Option (ℤ × ℤ)) (hands : List Pts) (assign : List ℕ)
    (now : ℤ) : PrimSel :=
  match (bestScan hands 0 none (-1)).1 with
  | none => ⟨none, primaryId, lastSet, lastCenter⟩
  | some b =>
      match assign.get? b with
      | some t => ⟨some b, some t, now, some (palmCenter (hands.getD b []))⟩
      | none => ⟨some b, primaryId, lastSet, lastCenter⟩

/-- `_select_primary` (lines 238-264): keep the current primary while the
700 ms lock window holds and its track is still assigned this frame;
otherwise pick the detection with the largest bounding-box area (ties to
the first in detection order) and restart the lock window.  `w`, `h` are
accepted and unused, as in the source. -/
def selectPrimaryCore (primaryId : Option ℕ) (lastSet : ℤ)
    (lastCenter : Option (ℤ × ℤ)) (hands : List Pts) (assign : List ℕ)
    (_w _h : ℤ) (now : ℤ) : PrimSel :=
  if hands = [] then ⟨none, primaryId, lastSet, lastCenter⟩
  else
    match primaryId with
    | some p =>
        if now - lastSet < 700 then
          match assign.findIdx? (fun t => t == p) with
          | some di =>
              ⟨some di, primaryId, lastSet,
               some (palmCenter (hands.getD di []))⟩
          | none => selectLargest primaryId lastSet lastCenter hands assign now
        else selectLargest primaryId lastSet lastCenter hands assign now
    | none => selectLargest primaryId lastSet lastCenter hands assign now

/-- `flow_static_px = max(6, int(scale * self.flow_static_ratio))`
(line 269) with `flow_static_ratio = 0.010` (line 42) and
`scale = max(w, h)` (line 268). -/
def flowStaticPx (w h : ℤ) : ℤ :=
  max 6 (pyInt (((max w h : ℤ) : ℚ) * (1 / 100)))

/-- The open-palm static test of `_infer` (line 352):
`abs(dx_med) < flow_static_px and abs(dy_med) < flow_static_px`. -/
def isStaticB (w h : ℤ) (dxMed dyMed : ℚ) : Bool :=
  decide (|dxMed| < ((flowStaticPx w h : ℤ) : ℚ)) &&
  decide (|dyMed| < ((flowStaticPx w h : ℤ) : ℚ))

/-- Median of a flow window, 0 when empty (lines 282-283). -/
def medOfWindow (l : List ℚ) : ℚ :=
  if l = [] then 0 else medianQ l

/-- The vertical speed threshold of `_infer` (lines 319-325):
`vel_thresh_norm_vertical = 1.20` scaled by the `down_bias = 0.90` and, for
downward motion close to the bottom edge, by the margin factor. -/
def vThrOf (h cy : ℤ) (isDown : Bool) : ℚ :=
  let marginPx : ℚ := max 0 ((h : ℚ) - (cy : ℚ))
  let marginScale : ℚ :=
    if marginPx < 120 then 85 / 100 + 15 / 100 * (marginPx / 120) else 1
  ((6 : ℚ) / 5) * (if isDown then (9 : ℚ) / 10 else 1) *
    (if isDown then marginScale else 1)

/-- The local values `_infer` (lines 266-368) derives before its three
gesture checks: post-flow state, window medians, dt, normalised speeds,
updated EMAs, downward-path sum, post-hysteresis gates (lines 309-313),
direction flag, vertical threshold and palm spread. -/
structure InferCtx where
  sFlow : RState
  dxMed : ℚ
  dyMed : ℚ
  newDyEma : ℚ
  newDxEma : ℚ
  histN : List ℚ
  histT : List ℤ
  dps : ℚ
  dyGate1 : Bool
  dxGate1 : Bool
  isDown : Bool
  vThr : ℚ
  spread : ℚ
deriving DecidableEq, Repr

/-- Computes the `InferCtx` of one `_infer` call (lines 267-331 minus the
gesture checks). -/
def inferCtx (s : RState) (pts : Pts) (h : ℤ) (gray : ℕ) (fin : FlowIn)
    (now : ℤ) : InferCtx :=
  let s1 := (handFlow s gray pts (palmCenter pts) fin).2
  let dxMed := medOfWindow s1.flow_window_dx
  let dyMed := medOfWindow s1.flow_window_dy
  let dt : ℤ := if s.last_frame_ms = 0 then 33 else max 16 (now - s.last_frame_ms)
  let handW := handWidth pts
  let dyNorm := dyMed * 1000 / ((dt : ℚ) + 1 / 1000000) / (handW + 1 / 1000000)
  let dxNorm := dxMed * 1000 / ((dt : ℚ) + 1 / 1000000) / (handW + 1 / 1000000)
  let newDyEma := (3 / 4) * s.dy_ema + (1 / 4) * dyNorm
  let newDxEma := (3 / 4) * s.dx_ema + (1 / 4) * dxNorm
  let histN := pushCap 24 s1.dy_hist_norm dyNorm
  let histT := pushCap 24 s1.dy_hist_t now
  { sFlow := s1, dxMed := dxMed, dyMed := dyMed,
    newDyEma := newDyEma, newDxEma := newDxEma,
    histN := histN, histT := histT,
    dps := downPathSum now ((histN.zip histT).reverse),
    dyGate1 := if |newDyEma| ≤ (6 / 5) * (4 / 5) then false else s.dy_gate_high,
    dxGate1 := if |newDxEma| ≤ (6 / 5) * (4 / 5) then false else s.dx_gate_high,
    isDown := decide (0 < dyMed),
    vThr := vThrOf h (palmCenter pts).2 (decide (0 < dyMed)),
    spread := palmSpread pts (palmCenter pts).1 (palmCenter pts).2 }

/-- The classifier state after the bookkeeping of `_infer` (flow state,
`last_frame_ms`, EMAs, history, post-hysteresis gates) but before any
gesture branch fires. -/
def s4Of (c : InferCtx) (now : ℤ) : RState :=
  { c.sFlow with
    last_frame_ms := now, dy_ema := c.newDyEma, dx_ema := c.newDxEma,
    dy_hist_norm := c.histN, dy_hist_t := c.histT,
    dy_gate_high := c.dyGate1, dx_gate_high := c.dxGate1 }

/-- The vertical-swipe trigger condition of `_infer` (line 333):
`four >= 1 and is_vertical and (speed_pass or path_pass) and
not _dy_gate_high and vertical_consistent`. -/
def vertFireP (pts : Pts) (c : InferCtx) : Prop :=
  1 ≤ fourCount pts ∧
  (if c.isDown then (9 : ℚ) / 5 else 11 / 5) * |c.dxMed| < |c.dyMed| ∧
  (c.vThr < |c.newDyEma| ∨ (c.isDown = true ∧ 9 / 5 < c.dps)) ∧
  c.dyGate1 = false ∧ consistentSign c.sFlow.flow_window_dy 4 = true

instance (pts : Pts) (c : InferCtx) : Decidable (vertFireP pts c) := by
  unfold vertFireP; infer_instance

/-- The horizontal-swipe trigger condition of `_infer` (lines 341-343). -/
def horizFireP (pts : Pts) (c : InferCtx) : Prop :=
  1 ≤ fourCount pts ∧ (11 / 5) * |c.dyMed| < |c.dxMed| ∧
  (6 : ℚ) / 5 < |c.newDxEma| ∧ c.dxGate1 = false ∧
  consistentSign c.sFlow.flow_window_dx 4 = true

instance (pts : Pts) (c : InferCtx) : Decidable (horizFireP pts c) := by
  unfold horizFireP; infer_instance

/-- The open-palm eligibility condition of `_infer` (lines 351-355):
not cooling, static flow, four fingers with the spread in range, and the
`open_palm_armed` flag (untouched since the start of the call) true. -/
def palmEligP (pts : Pts) (w h : ℤ) (c : InferCtx) (now : ℤ) : Prop :=
  ¬(now - c.sFlow.last_motion_cmd_ms < 300) ∧
  isStaticB w h c.dxMed c.dyMed = true ∧
  (4 ≤ fourCount pts ∧ 122 / 100 ≤ c.spread ∧ c.spread ≤ 201 / 100) ∧
  c.sFlow.open_palm_armed = true

instance (pts : Pts) (w h : ℤ) (c : InferCtx) (now : ℤ) :
    Decidable (palmEligP pts w h c now) := by
  unfold palmEligP; infer_instance

/-- `_infer` (lines 266-368): derive the `InferCtx`, then run the three
gesture checks in order (vertical swipe, horizontal swipe, open palm),
first match wins. -/
def inferStep (s : RState) (pts : Pts) (w h : ℤ) (gray : ℕ) (fin : FlowIn)
    (now : ℤ) : Option (Gesture × Cmd) × RState :=
  let c := inferCtx s pts h gray fin now
  let s4 := s4Of c now
  if vertFireP pts c then
    (some (if c.newDyEma < 0 then (Gesture.swipe_up, Cmd.vol_up)
           else (Gesture.swipe_down, Cmd.vol_down)),
     { s4 with dy_gate_high := true, last_motion_cmd_ms := now })
  else if horizFireP pts c then
    (some (if 0 < c.newDxEma then (Gesture.swipe_left, Cmd.seek_back)
           else (Gesture.swipe_right, Cmd.seek_forward)),
     { s4 with dx_gate_high := true, last_motion_cmd_ms := now })
  else
    let s5 := { s4 with last_spread := c.spread }
    if palmEligP pts w h c now then
      let cnt := s5.open_palm_stable_cnt + 1
      if 220 ≤ cnt * 33 then
        (some (Gesture.open_palm, Cmd.toggle),
         { s5 with open_palm_stable_cnt := 0, open_palm_armed := false })
      else (none, { s5 with open_palm_stable_cnt := cnt })
    else (none, { s5 with open_palm_stable_cnt := 0 })

/-- The FPS counter of `process_frame` (lines 382-388). -/
def fpsUpdate (s : RState) (now_s : ℚ) : RState :=
  let fc := s.frame_count + 1
  if fc % 30 = 0 then
    let elapsed := now_s - s.start_time
    let newFps := if 0 < elapsed then (fc : ℚ) / elapsed else s.fps
    { s with fps := newFps, start_time := now_s, frame_count := 0 }
  else { s with frame_count := fc }

/-- The `_update_tracks` call of `process_frame` (line 407): only executed
when at least one hand center was detected. -/
def frameTU (s : RState) (fi : FrameIn) : TrackUpd :=
  if fi.hands = [] then ⟨s.tracks, s.next_track_id, [], []⟩
  else updateTracksCore s.tracks s.next_track_id (fi.hands.map palmCenter)
    fi.now_ms

/-- The `_select_primary` call of `process_frame` (line 408).  With no
hands this degenerates to "no primary, state unchanged", matching the
`(None, {})` shortcut of the source. -/
def frameSel (s : RState) (fi : FrameIn) : PrimSel :=
  selectPrimaryCore s.primary_track_id s.last_primary_set_ms
    s.primary_last_center fi.hands (frameTU s fi).assign fi.w fi.h fi.now_ms

/-- The track id owning this frame's primary detection
(`assign_map.get(primary_det_idx)`, line 418). -/
def frameOwner (s : RState) (fi : FrameIn) : Option ℕ :=
  match (frameSel s fi).detIdx with
  | some di => (frameTU s fi).assign.get? di
  | none => none

/-- The classifier state as `_infer` receives it: after the FPS counter,
`num_hands`, track update, primary selection, and the refresh of
`open_palm_armed` from the owning track (lines 402-420). -/
def preInferState (s : RState) (fi : FrameIn) : RState :=
  let s0 := fpsUpdate s fi.now_s
  let tu := frameTU s fi
  let sel := frameSel s fi
  let s1 := { s0 with
    num_hands := fi.hands.length,
    tracks := tu.tracks, next_track_id := tu.nextId,
    primary_track_id := sel.primaryId,
    last_primary_set_ms := sel.lastSet,
    primary_last_center := sel.lastCenter }
  match sel.detIdx with
  | none => s1
  | some di =>
      match tu.assign.get? di with
      | some tid => { s1 with open_palm_armed := trackArmed s1.tracks tid }
      | none => s1

/-- `process_frame` (lines 371-441), with the detector's landmark sets as
input (the MediaPipe call and the coordinate scaling of lines 390-400 are
the external detector boundary). -/
def processFrame (s : RState) (fi : FrameIn) : DetRes × RState :=
  let tu := frameTU s fi
  let sel := frameSel s fi
  let s2 := preInferState s fi
  match sel.detIdx with
  | none =>
      let s3 := { s2 with open_palm_armed := false }
      (⟨decide (0 < fi.hands.length), fi.hands.length, none, none, none,
        s3.fps⟩, s3)
  | some di =>
      let pts := fi.hands.getD di []
      let r := inferStep s2 pts fi.w fi.h fi.gray fi.flowIn fi.now_ms
      let g := r.1
      let s3 := r.2
      let s4 :=
        match g, tu.assign.get? di with
        | some (Gesture.open_palm, _), some tid =>
            { s3 with tracks := setArmedFalse s3.tracks tid }
        | _, _ => s3
      (⟨decide (0 < fi.hands.length), fi.hands.length, g.map Prod.fst,
        g.map Prod.snd, some (palmCenter pts), s3.fps⟩, s4)

/-- State after processing the first `k` frames of `frames`, starting
from `s`. -/
def runStates (s : RState) (frames : List FrameIn) (k : ℕ) : RState :=
  (frames.take k).foldl (fun st fi => (processFrame st fi).2) s

/-- The `detection_result` of frame `k` (0-based) of a run. -/
def resAt (s : RState) (frames : List FrameIn) (k : ℕ) : DetRes :=
  (processFrame (runStates s frames k) (frames.getD k default)).1

/-- The `InferCtx` of frame processing: what `_infer` derives when a
primary hand exists this frame. -/
def frameCtx (s : RState) (fi : FrameIn) : Option InferCtx :=
  match (frameSel s fi).detIdx with
  | none => none
  | some di =>
      some (inferCtx (preInferState s fi) (fi.hands.getD di []) fi.h fi.gray
        fi.flowIn fi.now_ms)

/-- The window medians frame `k`'s `_infer` computes, as a run observer. -/
def frameMeds (s : RState) (fi : FrameIn) : ℚ × ℚ :=
  match frameCtx s fi with
  | none => (0, 0)
  | some c => (c.dxMed, c.dyMed)

/-- The vertical trigger threshold `v_thr` frame `k`'s `_infer` computes
(0 when no primary hand exists and `_infer` is not called). -/
def frameVThr (s : RState) (fi : FrameIn) : ℚ :=
  match frameCtx s fi with
  | none => 0
  | some c => c.vThr

/-!  Reducibility: Batteries marks the `Rat` field operations
`@[irreducible]`; re-enable unfolding locally so that `decide` can
evaluate concrete runs (the kernel ignores reducibility either way). -/

attribute [local semireducible] Rat.add Rat.mul Rat.sub Rat.inv

/-!  Concrete runs used as witnesses and counterexamples. -/

/-- A landmark set for the swipe runs: wrist (100,100), index MCP (50,100),
pinky MCP (150,100) (palm center (100,100), hand width 100), index PIP
(100,100) and index tip (100,80) so that exactly one finger counts as
extended; all remaining landmarks at the origin. -/
def ptsSwipe : Pts :=
  [(100,100),(0,0),(0,0),(0,0),(0,0),(50,100),(100,100),(0,0),(100,80),
   (0,0),(0,0),(0,0),(0,0),(0,0),(0,0),(0,0),(0,0),(150,100),(0,0),(0,0),
   (0,0)]

/-- One frame of the hysteresis run: a single hand `ptsSwipe` on a 400×500
frame, the tracker reporting one surviving anchor with delta (0, 6). -/
def swipeFrame (t : ℤ) : FrameIn :=
  ⟨[ptsSwipe], 400, 500, 0, FlowIn.ok [(true, (0, 6))], t, 0⟩

/-- The hysteresis counterexample run: five frames 33 ms apart (constant
downward flow of 6 px/frame), one frame 1000 ms later (lets the EMA decay
into the re-arm band without falling below 80 % of the down-biased
threshold), one frame 33 ms after that (re-triggers). -/
def hystFrames : List FrameIn :=
  [swipeFrame 10000, swipeFrame 10033, swipeFrame 10066, swipeFrame 10099,
   swipeFrame 10132, swipeFrame 11132, swipeFrame 11165]

/-- A landmark set holding a static open palm: palm center (100,120), hand
width 60, all four non-thumb fingers extended, all four fingertips at
distance exactly 90 from the palm center (spread ≈ 1.5 ∈ [1.22, 2.01]). -/
def ptsPalm : Pts :=
  [(100,160),(0,0),(0,0),(0,0),(0,0),(70,100),(100,300),(0,0),(100,30),
   (0,0),(100,300),(0,0),(190,120),(0,0),(100,300),(0,0),(10,120),
   (130,100),(100,300),(0,0),(100,210)]

/-- The same open palm shifted 200 px to the right (> 120 px away, so it
starts a fresh track). -/
def ptsPalmShift : Pts :=
  ptsPalm.map (fun p => (p.1 + 200, p.2))

/-- One static open-palm frame at the original position. -/
def palmFrame (t : ℤ) : FrameIn :=
  ⟨[ptsPalm], 400, 500, 0, FlowIn.ok [(true, (0, 0))], t, 0⟩

/-- One static open-palm frame at the shifted position. -/
def palmFrameShift (t : ℤ) : FrameIn :=
  ⟨[ptsPalmShift], 400, 500, 0, FlowIn.ok [(true, (0, 0))], t, 0⟩

/-- The open-palm re-arm run: seven static frames (toggle fires on the
seventh), then seven frames with the hand shifted beyond the 120 px match
radius (a fresh armed track; toggle fires again on the fourteenth). -/
def rearmFrames : List FrameIn :=
  ((List.range 7).map (fun k => palmFrame (10000 + 33 * (k : ℤ)))) ++
  ((List.range 7).map (fun k => palmFrameShift (10231 + 33 * (k : ℤ))))

/-- Iterated `_update_tracks` state over a two-hand detection sequence:
hand 1 at `A n` and hand 2 at `B n` on frame `n` (detection order as
listed), starting from the fresh tracker state. -/
def twoHandState (A B : ℕ → ℤ × ℤ) (tms : ℕ → ℤ) : ℕ → List (ℕ × Track) × ℕ
  | 0 => ([], 1)
  | n + 1 =>
      let p := twoHandState A B tms n
      let u := updateTracksCore p.1 p.2 [A n, B n] (tms n)
      (u.tracks, u.nextId)

/-- The assignment `_update_tracks` produces on frame `n` of a two-hand
sequence. -/
def twoHandAssign (A B : ℕ → ℤ × ℤ) (tms : ℕ → ℤ) (n : ℕ) : List ℕ :=
  (updateTracksCore (twoHandState A B tms n).1 (twoHandState A B tms n).2
    [A n, B n] (tms n)).assign

/-- First hand of the track-separation counterexample: sits at the origin
for four frames, then jumps 500 px to the right. -/
def teleportA (n : ℕ) : ℤ × ℤ :=
  if n < 4 then (0, 0) else (500, 0)

/-- Second hand of the track-separation counterexample: steady at
(1000, 0), always more than 120 px from the first hand. -/
def steadyB (_ : ℕ) : ℤ × ℤ :=
  (1000, 0)

/-- A landmark set sitting exactly on C5's boundary: the index fingertip
(landmark 8) exactly 10 px above the index PIP joint (landmark 6). -/
def ptsBoundary : Pts :=
  [(0,0),(0,0),(0,0),(0,0),(0,0),(0,0),(0,100),(0,0),(0,90),(0,0),(0,0),
   (0,0),(0,0),(0,0),(0,0),(0,0),(0,0),(0,0),(0,0),(0,0),(0,0)]

/-!  Claim-side (specification-following) definitions, for refutation and
refinement comparisons. -/

/-- C5's reading of finger extension: tip at least 10 px above the PIP
joint, i.e. `tip_y ≤ pip_y - 10`. -/
def fingerUpSpec (pts : Pts) (tip pip : ℕ) : Prop :=
  pty pts tip ≤ pty pts pip - 10

/-- C4's reading of the static noise floor: 4 % of `max(width, height)`. -/
def staticSpecB (w h : ℤ) (dxMed dyMed : ℚ) : Bool :=
  decide (|dxMed| < 4 / 100 * ((max w h : ℤ) : ℚ)) &&
  decide (|dyMed| < 4 / 100 * ((max w h : ℤ) : ℚ))

/-- C6's reading of the robust aggregate, with the unclamped
`IQR = Q3 - Q1` the claim states. -/
def robustMedianSpec (values : List ℚ) : ℚ :=
  if values = [] then 0
  else
    let med := medianQ values
    let iqr := percentileQ values 75 - percentileQ values 25
    let keep := values.filter (fun v => |v - med| ≤ 3 / 2 * iqr)
    if keep = [] then med else medianQ keep

/-- The amended C6 aggregate: identical to the claim's wording except that
the interquartile range is clamped below at `1e-6` before the `1.5×` band
is formed, as the code does. -/
def robustMedianSpecClamped (values : List ℚ) : ℚ :=
  if values = [] then 0
  else
    let med := medianQ values
    let iqr := percentileQ values 75 - percentileQ values 25
    let keep := values.filter (fun v => |v - med| ≤ 3 / 2 * max (1 / 1000000) iqr)
    if keep = [] then med else medianQ keep

/-- The five deltas refuting C6's unclamped aggregation: quartiles so
close together that the raw IQR (5·10⁻⁷) falls under the clamp. -/
def deltasTiny : List ℚ :=
  [0, 0, 1 / 2000000, 1 / 2000000, 3 / 2000000]

/-- The nine anchor deltas of C6's outlier scenario: eight values near
2 px and one 500 px outlier. -/
def deltasOutlier : List ℚ :=
  [9/5, 19/10, 2, 2, 21/10, 21/10, 11/5, 23/10, 500]

-- Theorems

lemma inferStep_result (s : RState) (pts : Pts) (w h : ℤ) (gray : ℕ)
    (fin : FlowIn) (now : ℤ) :
    (inferStep s pts w h gray fin now).1 = none ∨
    (inferStep s pts w h gray fin now).1 = some (Gesture.swipe_up, Cmd.vol_up) ∨
    (inferStep s pts w h gray fin now).1 = some (Gesture.swipe_down, Cmd.vol_down) ∨
    (inferStep s pts w h gray fin now).1 = some (Gesture.swipe_left, Cmd.seek_back) ∨
    (inferStep s pts w h gray fin now).1 = some (Gesture.swipe_right, Cmd.seek_forward) ∨
    (inferStep s pts w h gray fin now).1 = some (Gesture.open_palm, Cmd.toggle) := by
  simp only [inferStep]
  split_ifs <;> simp

lemma inferStep_toggle_elig (s : RState) (pts : Pts) (w h : ℤ) (gray : ℕ)
    (fin : FlowIn) (now : ℤ)
    (hr : (inferStep s pts w h gray fin now).1 =
      some (Gesture.open_palm, Cmd.toggle)) :
    palmEligP pts w h (inferCtx s pts h gray fin now) now := by
  simp only [inferStep] at hr
  split_ifs at hr <;> first | assumption | simp_all

/-- C4 (amended): the static test of the open-palm step holds iff both
median flow magnitudes are below `max(6, int(0.010 * max(w, h)))` pixels -
a 1 % noise floor with a 6 px minimum, not the 4 % of the spec (lines
42, 268-269, 343); moreover every emitted toggle passes this test. -/
theorem C4_thm :
    (∀ (w h : ℤ) (dx dy : ℚ),
      isStaticB w h dx dy = true ↔
        (|dx| < ((max 6 (pyInt (((max w h : ℤ) : ℚ) / 100)) : ℤ) : ℚ) ∧
         |dy| < ((max 6 (pyInt (((max w h : ℤ) : ℚ) / 100)) : ℤ) : ℚ))) ∧
    (∀ (s : RState) (fi : FrameIn),
      (processFrame s fi).1.cmd = some Cmd.toggle →
      isStaticB fi.w fi.h (frameMeds s fi).1 (frameMeds s fi).2 = true) := by
  constructor
  · intro w h dx dy
    simp [isStaticB, flowStaticPx, div_eq_mul_inv]
  · intro s fi hcmd
    rcases hsel : (frameSel s fi).detIdx with _ | di
    · simp only [processFrame, hsel] at hcmd
      exact absurd hcmd (by simp)
    · simp only [processFrame, hsel] at hcmd
      have hres := inferStep_result (preInferState s fi) (fi.hands.getD di [])
        fi.w fi.h fi.gray fi.flowIn fi.now_ms
      rcases hres with hg|hg|hg|hg|hg|hg
      · rw [hg] at hcmd; simp at hcmd
      · rw [hg] at hcmd; simp at hcmd
      · rw [hg] at hcmd; simp at hcmd
      · rw [hg] at hcmd; simp at hcmd
      · rw [hg] at hcmd; simp at hcmd
      · have helig := inferStep_toggle_elig (preInferState s fi)
          (fi.hands.getD di []) fi.w fi.h fi.gray fi.flowIn fi.now_ms hg
        simp only [frameMeds, frameCtx, hsel]
        exact helig.2.1

/-- C2: on a frame with zero detected hands, `process_frame` returns
gesture `none`, cmd `none`, `primary_center` `none`, reports zero hands,
and clears the open-palm armed flag (lines 399-407, 417-418). -/
theorem C2_thm :
    ∀ (s : RState) (w h : ℤ) (gray : ℕ) (fin : FlowIn) (nms : ℤ) (ns : ℚ),
      (processFrame s ⟨[], w, h, gray, fin, nms, ns⟩).1.gesture = none ∧
      (processFrame s ⟨[], w, h, gray, fin, nms, ns⟩).1.cmd = none ∧
      (processFrame s ⟨[], w, h, gray, fin, nms, ns⟩).1.primary_center = none ∧
      (processFrame s ⟨[], w, h, gray, fin, nms, ns⟩).1.num_hands = 0 ∧
      (processFrame s ⟨[], w, h, gray, fin, nms, ns⟩).2.open_palm_armed = false := by
  intro s w h gray fin nms ns
  simp [processFrame, frameSel, frameTU, selectPrimaryCore]

/-- C10: every result of `process_frame` carries gesture and cmd that are
either both `none` or exactly one of the five fixed pairs, one pair per
frame (lines 333-368, 399-431). -/
theorem C10_thm :
    ∀ (s : RState) (fi : FrameIn),
      ((processFrame s fi).1.gesture = none ∧ (processFrame s fi).1.cmd = none) ∨
      ((processFrame s fi).1.gesture = some Gesture.swipe_up ∧ (processFrame s fi).1.cmd = some Cmd.vol_up) ∨
      ((processFrame s fi).1.gesture = some Gesture.swipe_down ∧ (processFrame s fi).1.cmd = some Cmd.vol_down) ∨
      ((processFrame s fi).1.gesture = some Gesture.swipe_left ∧ (processFrame s fi).1.cmd = some Cmd.seek_back) ∨
      ((processFrame s fi).1.gesture = some Gesture.swipe_right ∧ (processFrame s fi).1.cmd = some Cmd.seek_forward) ∨
      ((processFrame s fi).1.gesture = some Gesture.open_palm ∧ (processFrame s fi).1.cmd = some Cmd.toggle) := by
  intro s fi
  rcases hsel : (frameSel s fi).detIdx with _ | di
  · left; simp [processFrame, hsel]
  · have hres := inferStep_result (preInferState s fi) (fi.hands.getD di [])
      fi.w fi.h fi.gray fi.flowIn fi.now_ms
    simp only [processFrame, hsel]
    rcases hres with hg|hg|hg|hg|hg|hg <;> rw [hg] <;> simp

lemma bboxArea_pos (pts : Pts) : 1 ≤ bboxArea pts := le_max_left _ _

lemma bestScan_char :
    ∀ (hands : List Pts) (idx : ℕ) (bi : Option ℕ) (ba : ℤ),
      (bestScan hands idx bi ba = (bi, ba) ∧
        ∀ m < hands.length, bboxArea (hands.getD m []) ≤ ba) ∨
      (∃ m, m < hands.length ∧
        bestScan hands idx bi ba = (some (idx + m), bboxArea (hands.getD m [])) ∧
        ba < bboxArea (hands.getD m []) ∧
        (∀ k < hands.length, bboxArea (hands.getD k []) ≤ bboxArea (hands.getD m [])) ∧
        (∀ k < m, bboxArea (hands.getD k []) < bboxArea (hands.getD m []))) := by
  intro hands
  induction hands with
  | nil =>
      intro idx bi ba
      left
      exact ⟨rfl, fun m hm => by simp at hm⟩
  | cons p rest ih =>
      intro idx bi ba
      by_cases hp : ba < bboxArea p
      · rcases ih (idx + 1) (some idx) (bboxArea p) with ⟨heq, hall⟩ | ⟨m, hm, heq, hlt, hall, hfirst⟩
        · right
          refine ⟨0, by simp, ?_, hp, ?_, by omega⟩
          · simpa [bestScan, hp] using heq
          · intro k hk
            cases k with
            | zero => simp
            | succ k2 => simpa using hall k2 (by simpa using hk)
        · right
          refine ⟨m + 1, by simpa using hm, ?_, ?_, ?_, ?_⟩
          · have : idx + (m + 1) = idx + 1 + m := by omega
            rw [this]
            simpa [bestScan, hp] using heq
          · exact lt_trans hp hlt
          · intro k hk
            cases k with
            | zero => simpa using le_of_lt hlt
            | succ k2 => simpa using hall k2 (by simpa using hk)
          · intro k hk
            cases k with
            | zero => simpa using hlt
            | succ k2 => simpa using hfirst k2 (by omega)
      · rcases ih (idx + 1) bi ba with ⟨heq, hall⟩ | ⟨m, hm, heq, hlt, hall, hfirst⟩
        · left
          constructor
          · simpa [bestScan, hp] using heq
          · intro k hk
            cases k with
            | zero => simpa using le_of_not_lt hp
            | succ k2 => simpa using hall k2 (by simpa using hk)
        · right
          refine ⟨m + 1, by simpa using hm, ?_, hlt, ?_, ?_⟩
          · have : idx + (m + 1) = idx + 1 + m := by omega
            rw [this]
            simpa [bestScan, hp] using heq
          · intro k hk
            cases k with
            | zero =>
                simpa using le_trans (le_of_not_lt hp) (le_of_lt hlt)
            | succ k2 => simpa using hall k2 (by simpa using hk)
          · intro k hk
            cases k with
            | zero => simpa using lt_of_le_of_lt (le_of_not_lt hp) hlt
            | succ k2 => simpa using hfirst k2 (by omega)

lemma selectLargest_spec (primaryId : Option ℕ) (lastSet : ℤ)
    (lastCenter : Option (ℤ × ℤ)) (hands : List Pts) (assign : List ℕ)
    (now : ℤ) (hne : hands ≠ []) :
    ∃ b, b < hands.length ∧
      (∀ m < hands.length, bboxArea (hands.getD m []) ≤ bboxArea (hands.getD b [])) ∧
      (∀ m < b, bboxArea (hands.getD m []) < bboxArea (hands.getD b [])) ∧
      ((selectLargest primaryId lastSet lastCenter hands assign now).detIdx = some b) ∧
      (∀ t, assign.get? b = some t →
        selectLargest primaryId lastSet lastCenter hands assign now =
          ⟨some b, some t, now, some (palmCenter (hands.getD b []))⟩) := by
  rcases bestScan_char hands 0 none (-1) with ⟨_, hall⟩ | ⟨m, hm, heq, _, hall, hfirst⟩
  · exfalso
    have h0 : 0 < hands.length := List.length_pos.mpr hne
    have := hall 0 h0
    have := bboxArea_pos (hands.getD 0 [])
    omega
  · have heq2 : bestScan hands 0 none (-1) =
        (some m, bboxArea (hands.getD m [])) := by simpa using heq
    refine ⟨m, hm, hall, hfirst, ?_, ?_⟩
    · unfold selectLargest
      rw [heq2]
      rcases hget : assign[m]? with _ | t <;> simp [hget]
    · intro t hget
      rw [List.get?_eq_getElem?] at hget
      unfold selectLargest
      rw [heq2]
      simp [hget]

/-- C7: primary selection.  With no hands the selector returns no index
and leaves the primary fields unchanged; a primary under the 700 ms lock
that is among this frame's assignments keeps its index and center;
otherwise the first hand of maximal bounding-box area becomes primary
(lines 180-208). -/
theorem C7_thm :
    (∀ (pid : Option ℕ) (lastSet : ℤ) (lastCenter : Option (ℤ × ℤ))
       (assign : List ℕ) (w h now : ℤ),
      selectPrimaryCore pid lastSet lastCenter [] assign w h now =
        ⟨none, pid, lastSet, lastCenter⟩) ∧
    (∀ (p : ℕ) (lastSet : ℤ) (lastCenter : Option (ℤ × ℤ)) (hands : List Pts)
       (assign : List ℕ) (w h now : ℤ) (di : ℕ),
      hands ≠ [] → now - lastSet < 700 →
      assign.findIdx? (fun t => t == p) = some di →
      selectPrimaryCore (some p) lastSet lastCenter hands assign w h now =
        ⟨some di, some p, lastSet, some (palmCenter (hands.getD di []))⟩) ∧
    (∀ (pid : Option ℕ) (lastSet : ℤ) (lastCenter : Option (ℤ × ℤ))
       (hands : List Pts) (assign : List ℕ) (w h now : ℤ),
      hands ≠ [] →
      (∀ p, pid = some p → ¬(now - lastSet < 700) ∨
        assign.findIdx? (fun t => t == p) = none) →
      ∃ b, b < hands.length ∧
        (∀ m < hands.length, bboxArea (hands.getD m []) ≤ bboxArea (hands.getD b [])) ∧
        (∀ m < b, bboxArea (hands.getD m []) < bboxArea (hands.getD b [])) ∧
        (selectPrimaryCore pid lastSet lastCenter hands assign w h now).detIdx = some b ∧
        (∀ t, assign.get? b = some t →
          selectPrimaryCore pid lastSet lastCenter hands assign w h now =
            ⟨some b, some t, now, some (palmCenter (hands.getD b []))⟩)) := by
  refine ⟨?_, ?_, ?_⟩
  · intro pid lastSet lastCenter assign w h now
    simp [selectPrimaryCore]
  · intro p lastSet lastCenter hands assign w h now di hne hlock hfind
    simp only [selectPrimaryCore, if_neg hne, if_pos hlock, hfind]
  · intro pid lastSet lastCenter hands assign w h now hne hnolock
    simp only [selectPrimaryCore, if_neg hne]
    rcases pid with _ | p
    · exact selectLargest_spec none lastSet lastCenter hands assign now hne
    · rcases hnolock p rfl with hl | hl
      · simp only [if_neg hl]
        exact selectLargest_spec (some p) lastSet lastCenter hands assign now hne
      · by_cases hlock : now - lastSet < 700
        · simp only [if_pos hlock, hl]
          exact selectLargest_spec (some p) lastSet lastCenter hands assign now hne
        · simp only [if_neg hlock]
          exact selectLargest_spec (some p) lastSet lastCenter hands assign now hne

lemma inferStep_dy_ema (s : RState) (pts : Pts) (w h : ℤ) (gray : ℕ)
    (fin : FlowIn) (now : ℤ) :
    (inferStep s pts w h gray fin now).2.dy_ema =
      (inferCtx s pts h gray fin now).newDyEma := by
  simp only [inferStep]
  split_ifs <;> rfl

lemma inferStep_dx_ema (s : RState) (pts : Pts) (w h : ℤ) (gray : ℕ)
    (fin : FlowIn) (now : ℤ) :
    (inferStep s pts w h gray fin now).2.dx_ema =
      (inferCtx s pts h gray fin now).newDxEma := by
  simp only [inferStep]
  split_ifs <;> rfl

lemma inferCtx_dyGate1 (s : RState) (pts : Pts) (h : ℤ) (gray : ℕ)
    (fin : FlowIn) (now : ℤ) :
    (inferCtx s pts h gray fin now).dyGate1 =
      if |(inferCtx s pts h gray fin now).newDyEma| ≤ (6 / 5) * (4 / 5)
      then false else s.dy_gate_high := rfl

lemma inferCtx_dxGate1 (s : RState) (pts : Pts) (h : ℤ) (gray : ℕ)
    (fin : FlowIn) (now : ℤ) :
    (inferCtx s pts h gray fin now).dxGate1 =
      if |(inferCtx s pts h gray fin now).newDxEma| ≤ (6 / 5) * (4 / 5)
      then false else s.dx_gate_high := rfl

lemma inferStep_vert_holds (s : RState) (pts : Pts) (w h : ℤ) (gray : ℕ)
    (fin : FlowIn) (now : ℤ)
    (hg : s.dy_gate_high = true)
    (he : ¬(|(inferStep s pts w h gray fin now).2.dy_ema| ≤ (6 / 5) * (4 / 5))) :
    (inferStep s pts w h gray fin now).2.dy_gate_high = true ∧
    ∀ g c, (inferStep s pts w h gray fin now).1 = some (g, c) →
      c ≠ Cmd.vol_up ∧ c ≠ Cmd.vol_down := by
  rw [inferStep_dy_ema] at he
  have hgate : (inferCtx s pts h gray fin now).dyGate1 = true := by
    rw [inferCtx_dyGate1, if_neg he, hg]
  simp only [inferStep]
  split_ifs
  all_goals refine ⟨by first | rfl | simp [s4Of, hgate], ?_⟩
  all_goals intro g c hr
  all_goals
    first
      | (exact absurd (And.left (And.right (And.right (And.right
          ‹vertFireP pts (inferCtx s pts h gray fin now)›))))
          (by simp [hgate]))
      | (simp at hr; cases hr.2; simp)
      | (simp at hr)
      | simp_all

lemma inferStep_horiz_holds (s : RState) (pts : Pts) (w h : ℤ) (gray : ℕ)
    (fin : FlowIn) (now : ℤ)
    (hg : s.dx_gate_high = true)
    (he : ¬(|(inferStep s pts w h gray fin now).2.dx_ema| ≤ (6 / 5) * (4 / 5))) :
    (inferStep s pts w h gray fin now).2.dx_gate_high = true ∧
    ∀ g c, (inferStep s pts w h gray fin now).1 = some (g, c) →
      c ≠ Cmd.seek_back ∧ c ≠ Cmd.seek_forward := by
  rw [inferStep_dx_ema] at he
  have hgate : (inferCtx s pts h gray fin now).dxGate1 = true := by
    rw [inferCtx_dxGate1, if_neg he, hg]
  simp only [inferStep]
  split_ifs
  all_goals refine ⟨by first | rfl | simp [s4Of, hgate], ?_⟩
  all_goals intro g c hr
  all_goals
    first
      | (exact absurd (And.left (And.right (And.right (And.right
          ‹horizFireP pts (inferCtx s pts h gray fin now)›))))
          (by simp [hgate]))
      | (simp at hr; cases hr.2; simp)
      | (simp at hr)
      | simp_all

lemma inferStep_vert_sets (s : RState) (pts : Pts) (w h : ℤ) (gray : ℕ)
    (fin : FlowIn) (now : ℤ) (g : Gesture) (c : Cmd)
    (hr : (inferStep s pts w h gray fin now).1 = some (g, c))
    (hc : c = Cmd.vol_up ∨ c = Cmd.vol_down) :
    (inferStep s pts w h gray fin now).2.dy_gate_high = true := by
  simp only [inferStep] at hr ⊢
  split_ifs at hr ⊢ <;>
    first | rfl | (rcases hc with hc | hc <;> simp_all)

lemma inferStep_horiz_sets (s : RState) (pts : Pts) (w h : ℤ) (gray : ℕ)
    (fin : FlowIn) (now : ℤ) (g : Gesture) (c : Cmd)
    (hr : (inferStep s pts w h gray fin now).1 = some (g, c))
    (hc : c = Cmd.seek_back ∨ c = Cmd.seek_forward) :
    (inferStep s pts w h gray fin now).2.dx_gate_high = true := by
  simp only [inferStep] at hr ⊢
  split_ifs at hr ⊢ <;>
    first | rfl | (rcases hc with hc | hc <;> simp_all)

lemma preInferState_core (s : RState) (fi : FrameIn) :
    (preInferState s fi).dy_gate_high = s.dy_gate_high ∧
    (preInferState s fi).dx_gate_high = s.dx_gate_high ∧
    (preInferState s fi).dy_ema = s.dy_ema ∧
    (preInferState s fi).dx_ema = s.dx_ema := by
  simp only [preInferState, fpsUpdate]
  repeat' split
  all_goals simp

lemma processFrame_state_infer (s : RState) (fi : FrameIn) (di : ℕ)
    (hsel : (frameSel s fi).detIdx = some di) :
    (processFrame s fi).2.dy_gate_high =
      (inferStep (preInferState s fi) (fi.hands.getD di []) fi.w fi.h fi.gray
        fi.flowIn fi.now_ms).2.dy_gate_high ∧
    (processFrame s fi).2.dx_gate_high =
      (inferStep (preInferState s fi) (fi.hands.getD di []) fi.w fi.h fi.gray
        fi.flowIn fi.now_ms).2.dx_gate_high ∧
    (processFrame s fi).2.dy_ema =
      (inferStep (preInferState s fi) (fi.hands.getD di []) fi.w fi.h fi.gray
        fi.flowIn fi.now_ms).2.dy_ema ∧
    (processFrame s fi).2.dx_ema =
      (inferStep (preInferState s fi) (fi.hands.getD di []) fi.w fi.h fi.gray
        fi.flowIn fi.now_ms).2.dx_ema ∧
    (processFrame s fi).1.cmd =
      Option.map Prod.snd (inferStep (preInferState s fi)
        (fi.hands.getD di []) fi.w fi.h fi.gray fi.flowIn fi.now_ms).1 := by
  simp only [processFrame, hsel]
  repeat' split
  all_goals simp_all [setArmedFalse]

lemma processFrame_state_none (s : RState) (fi : FrameIn)
    (hsel : (frameSel s fi).detIdx = none) :
    (processFrame s fi).2.dy_gate_high = s.dy_gate_high ∧
    (processFrame s fi).2.dx_gate_high = s.dx_gate_high ∧
    (processFrame s fi).2.dy_ema = s.dy_ema ∧
    (processFrame s fi).2.dx_ema = s.dx_ema ∧
    (processFrame s fi).1.cmd = none := by
  have hp := preInferState_core s fi
  simp only [processFrame, hsel]
  simp [hp.1, hp.2.1, hp.2.2.1, hp.2.2.2]

/-- `cmd` is one of the two vertical-swipe commands. -/
def vertCmdP (o : Option Cmd) : Prop :=
  o = some Cmd.vol_up ∨ o = some Cmd.vol_down

/-- `cmd` is one of the two horizontal-swipe commands. -/
def horizCmdP (o : Option Cmd) : Prop :=
  o = some Cmd.seek_back ∨ o = some Cmd.seek_forward

instance (o : Option Cmd) : Decidable (vertCmdP o) := by
  unfold vertCmdP; infer_instance

instance (o : Option Cmd) : Decidable (horizCmdP o) := by
  unfold horizCmdP; infer_instance

lemma processFrame_vert_sets (s : RState) (fi : FrameIn)
    (hc : vertCmdP (processFrame s fi).1.cmd) :
    (processFrame s fi).2.dy_gate_high = true := by
  rcases hsel : (frameSel s fi).detIdx with _ | di
  · have := (processFrame_state_none s fi hsel).2.2.2.2
    rcases hc with hc | hc <;> simp_all
  · have hst := processFrame_state_infer s fi di hsel
    rw [hst.1]
    rw [hst.2.2.2.2] at hc
    rcases hr : (inferStep (preInferState s fi) (fi.hands.getD di []) fi.w
        fi.h fi.gray fi.flowIn fi.now_ms).1 with _ | gc
    · rw [hr] at hc; rcases hc with hc | hc <;> simp_all
    · rw [hr] at hc
      refine inferStep_vert_sets _ _ _ _ _ _ _ gc.1 gc.2 (by rw [hr]) ?_
      rcases hc with hc | hc <;> simp at hc <;> simp [hc]

lemma processFrame_horiz_sets (s : RState) (fi : FrameIn)
    (hc : horizCmdP (processFrame s fi).1.cmd) :
    (processFrame s fi).2.dx_gate_high = true := by
  rcases hsel : (frameSel s fi).detIdx with _ | di
  · have := (processFrame_state_none s fi hsel).2.2.2.2
    rcases hc with hc | hc <;> simp_all
  · have hst := processFrame_state_infer s fi di hsel
    rw [hst.2.1]
    rw [hst.2.2.2.2] at hc
    rcases hr : (inferStep (preInferState s fi) (fi.hands.getD di []) fi.w
        fi.h fi.gray fi.flowIn fi.now_ms).1 with _ | gc
    · rw [hr] at hc; rcases hc with hc | hc <;> simp_all
    · rw [hr] at hc
      refine inferStep_horiz_sets _ _ _ _ _ _ _ gc.1 gc.2 (by rw [hr]) ?_
      rcases hc with hc | hc <;> simp at hc <;> simp [hc]

lemma processFrame_vert_holds (s : RState) (fi : FrameIn)
    (hg : s.dy_gate_high = true)
    (he : ¬(|(processFrame s fi).2.dy_ema| ≤ (6 / 5) * (4 / 5))) :
    (processFrame s fi).2.dy_gate_high = true ∧
    ¬vertCmdP (processFrame s fi).1.cmd := by
  rcases hsel : (frameSel s fi).detIdx with _ | di
  · have hn := processFrame_state_none s fi hsel
    rw [hn.1, hn.2.2.2.2]
    refine ⟨hg, ?_⟩
    rintro (hc | hc) <;> simp_all
  · have hst := processFrame_state_infer s fi di hsel
    rw [hst.2.2.1] at he
    have hpre : (preInferState s fi).dy_gate_high = true := by
      rw [(preInferState_core s fi).1, hg]
    have hh := inferStep_vert_holds (preInferState s fi)
      (fi.hands.getD di []) fi.w fi.h fi.gray fi.flowIn fi.now_ms hpre he
    rw [hst.1, hst.2.2.2.2]
    refine ⟨hh.1, ?_⟩
    rcases hr : (inferStep (preInferState s fi) (fi.hands.getD di []) fi.w
        fi.h fi.gray fi.flowIn fi.now_ms).1 with _ | gc
    · rintro (hc | hc) <;> simp_all
    · have := hh.2 gc.1 gc.2 (by rw [hr])
      rintro (hc | hc) <;> simp_all

lemma processFrame_horiz_holds (s : RState) (fi : FrameIn)
    (hg : s.dx_gate_high = true)
    (he : ¬(|(processFrame s fi).2.dx_ema| ≤ (6 / 5) * (4 / 5))) :
    (processFrame s fi).2.dx_gate_high = true ∧
    ¬horizCmdP (processFrame s fi).1.cmd := by
  rcases hsel : (frameSel s fi).detIdx with _ | di
  · have hn := processFrame_state_none s fi hsel
    rw [hn.2.1, hn.2.2.2.2]
    refine ⟨hg, ?_⟩
    rintro (hc | hc) <;> simp_all
  · have hst := processFrame_state_infer s fi di hsel
    rw [hst.2.2.2.1] at he
    have hpre : (preInferState s fi).dx_gate_high = true := by
      rw [(preInferState_core s fi).2.1, hg]
    have hh := inferStep_horiz_holds (preInferState s fi)
      (fi.hands.getD di []) fi.w fi.h fi.gray fi.flowIn fi.now_ms hpre he
    rw [hst.2.1, hst.2.2.2.2]
    refine ⟨hh.1, ?_⟩
    rcases hr : (inferStep (preInferState s fi) (fi.hands.getD di []) fi.w
        fi.h fi.gray fi.flowIn fi.now_ms).1 with _ | gc
    · rintro (hc | hc) <;> simp_all
    · have := hh.2 gc.1 gc.2 (by rw [hr])
      rintro (hc | hc) <;> simp_all

lemma runStates_succ (s0 : RState) (frames : List FrameIn) (k : ℕ)
    (hk : k < frames.length) :
    runStates s0 frames (k + 1) =
      (processFrame (runStates s0 frames k) (frames.getD k default)).2 := by
  unfold runStates
  rw [List.take_succ]
  rw [List.foldl_append]
  have h1 : frames[k]? = some (frames.getD k default) := by
    rw [List.getElem?_eq_getElem hk]
    simp [List.getD_eq_getElem?_getD, List.getElem?_eq_getElem hk]
  rw [h1]
  simp

/-- C1 (amended): hysteresis of swipe emission.  Between any two vertical
(resp. horizontal) swipe commands emitted by `processFrame` on the same run
there is a frame at which the corresponding EMA magnitude has fallen to at
most `1.2 * 0.8 = 0.96`, the fixed re-arm level `0.8 * base_threshold` used
by the gate reset of `_infer` (lines 311-314); this constant is not in
general 80 % of the adaptive trigger threshold of the emitting frame, which
is scaled by an extra factor in [0.9, 1.08] (lines 303-309). -/
theorem C1_thm :
    (∀ (s0 : RState) (frames : List FrameIn) (i j : ℕ),
      i < j → j < frames.length →
      vertCmdP (resAt s0 frames i).cmd → vertCmdP (resAt s0 frames j).cmd →
      ∃ k, i < k ∧ k ≤ j ∧
        |(runStates s0 frames (k + 1)).dy_ema| ≤ (6 / 5) * (4 / 5)) ∧
    (∀ (s0 : RState) (frames : List FrameIn) (i j : ℕ),
      i < j → j < frames.length →
      horizCmdP (resAt s0 frames i).cmd → horizCmdP (resAt s0 frames j).cmd →
      ∃ k, i < k ∧ k ≤ j ∧
        |(runStates s0 frames (k + 1)).dx_ema| ≤ (6 / 5) * (4 / 5)) := by
  constructor
  · intro s0 frames i j hij hjlen hi hj
    by_contra hcon
    push_neg at hcon
    have key : ∀ m, i ≤ m → m < j →
        (runStates s0 frames (m + 1)).dy_gate_high = true := by
      intro m him
      induction m, him using Nat.le_induction with
      | base =>
          intro _
          rw [runStates_succ s0 frames i (by omega)]
          exact processFrame_vert_sets _ _ hi
      | succ m him ih =>
          intro hmj
          have hgate := ih (by omega)
          have he := hcon (m + 1) (by omega) (by omega)
          rw [runStates_succ s0 frames (m + 1) (by omega)] at he ⊢
          exact (processFrame_vert_holds _ _ hgate (not_le.mpr he)).1
    have hj1 : (runStates s0 frames j).dy_gate_high = true := by
      have := key (j - 1) (by omega) (by omega)
      have hsub : j - 1 + 1 = j := by omega
      rwa [hsub] at this
    have hej := hcon j (by omega) (le_refl j)
    rw [runStates_succ s0 frames j (by omega)] at hej
    exact absurd hj (processFrame_vert_holds _ _ hj1 (not_le.mpr hej)).2
  · intro s0 frames i j hij hjlen hi hj
    by_contra hcon
    push_neg at hcon
    have key : ∀ m, i ≤ m → m < j →
        (runStates s0 frames (m + 1)).dx_gate_high = true := by
      intro m him
      induction m, him using Nat.le_induction with
      | base =>
          intro _
          rw [runStates_succ s0 frames i (by omega)]
          exact processFrame_horiz_sets _ _ hi
      | succ m him ih =>
          intro hmj
          have hgate := ih (by omega)
          have he := hcon (m + 1) (by omega) (by omega)
          rw [runStates_succ s0 frames (m + 1) (by omega)] at he ⊢
          exact (processFrame_horiz_holds _ _ hgate (not_le.mpr he)).1
    have hj1 : (runStates s0 frames j).dx_gate_high = true := by
      have := key (j - 1) (by omega) (by omega)
      have hsub : j - 1 + 1 = j := by omega
      rwa [hsub] at this
    have hej := hcon j (by omega) (le_refl j)
    rw [runStates_succ s0 frames j (by omega)] at hej
    exact absurd hj (processFrame_horiz_holds _ _ hj1 (not_le.mpr hej)).2

def claimC1Vert (s0 : RState) (frames : List FrameIn) : Prop :=
  ∀ i j, i < j → j < frames.length →
    vertCmdP (resAt s0 frames i).cmd → vertCmdP (resAt s0 frames j).cmd →
    ∃ k, i < k ∧ k ≤ j ∧
      |(runStates s0 frames (k + 1)).dy_ema| <
        4 / 5 * frameVThr (runStates s0 frames i) (frames.getD i default)

def claimC1Horiz (s0 : RState) (frames : List FrameIn) : Prop :=
  ∀ i j, i < j → j < frames.length →
    horizCmdP (resAt s0 frames i).cmd → horizCmdP (resAt s0 frames j).cmd →
    ∃ k, i < k ∧ k ≤ j ∧
      |(runStates s0 frames (k + 1)).dx_ema| < 4 / 5 * (6 / 5)

set_option maxRecDepth 10000 in
/-- C1 as literally read (80 % of the emitting frame's threshold) fails on
the concrete run `hystFrames`: vol_down fires at frames 4 and 6 while
|dy_ema| never falls to 80 % of the adaptive threshold in between. -/
theorem C1_counterexample :
    ¬(claimC1Vert (initState 0) hystFrames ∧
      claimC1Horiz (initState 0) hystFrames) := by
  rintro ⟨hv, _⟩
  obtain ⟨k, hk1, hk2, hlt⟩ :=
    hv 4 6 (by omega) (by decide) (by decide) (by decide)
  have hk : k = 5 ∨ k = 6 := by omega
  rcases hk with rfl | rfl
  · exact absurd hlt (by decide)
  · exact absurd hlt (by decide)

set_option maxRecDepth 10000 in
/-- Instance of the amended C1 on the run `hystFrames`. -/
theorem C1_witness :
    vertCmdP (resAt (initState 0) hystFrames 4).cmd ∧
    vertCmdP (resAt (initState 0) hystFrames 6).cmd ∧
    ∃ k, 4 < k ∧ k ≤ 6 ∧
      |(runStates (initState 0) hystFrames (k + 1)).dy_ema| ≤ (6 / 5) * (4 / 5) :=
  ⟨by decide, by decide,
   C1_thm.1 (initState 0) hystFrames 4 6 (by omega) (by decide) (by decide)
     (by decide)⟩

lemma updateTracksCore_two (t1 t2 : Track) (cA cB : ℤ × ℤ) (now : ℤ)
    (hA : distSq cA t1.center ≤ 14400)
    (hAB : 14400 < distSq cA t2.center)
    (hB : distSq cB t2.center ≤ 14400)
    (_hBA : 14400 < distSq cB t1.center) :
    updateTracksCore [(1, t1), (2, t2)] 3 [cA, cB] now =
      ⟨[(1, ⟨cA, now, t1.armed⟩), (2, ⟨cB, now, t2.armed⟩)], 3, [1, 2], []⟩ := by
  have c1 : (distSq cA t1.center < 1000000000000000000) = True :=
    eq_true (by omega)
  have c2 : (distSq cA t2.center < distSq cA t1.center) = False :=
    eq_false (by omega)
  have c3 : (distSq cA t1.center ≤ 14400) = True := eq_true hA
  have c4 : (distSq cB t2.center < 1000000000000000000) = True :=
    eq_true (by omega)
  have c5 : (distSq cB t2.center ≤ 14400) = True := eq_true hB
  simp [updateTracksCore, greedyAssign, bestMatch, lookupTrack,
    updateCenterSeen, rearmOne, mapEntry, c1, c2, c3, c4, c5]

/-- C8 (amended): with two hands whose per-frame movement stays within the
120 px matching radius and which stay more than 120 px from each other's
previous positions, the greedy assignment gives ids 1 and 2 to the two
hands on every frame of the run (lines 211-236). -/
theorem C8_thm :
    ∀ (A B : ℕ → ℤ × ℤ) (tms : ℕ → ℤ),
      (∀ n, distSq (A (n + 1)) (A n) ≤ 14400) →
      (∀ n, distSq (B (n + 1)) (B n) ≤ 14400) →
      (∀ n, 14400 < distSq (A (n + 1)) (B n)) →
      (∀ n, 14400 < distSq (B (n + 1)) (A n)) →
      (14400 < distSq (B 0) (A 0)) →
      ∀ n, twoHandAssign A B tms n = [1, 2] ∧
        twoHandState A B tms (n + 1) =
          ([(1, ⟨A n, tms n, true⟩), (2, ⟨B n, tms n, true⟩)], 3) := by
  intro A B tms hA hB hAB hBA _h0
  have step0 : twoHandAssign A B tms 0 = [1, 2] ∧
      twoHandState A B tms 1 =
        ([(1, ⟨A 0, tms 0, true⟩), (2, ⟨B 0, tms 0, true⟩)], 3) := by
    constructor <;> rfl
  intro n
  induction n with
  | zero => exact step0
  | succ n ih =>
      have hupd := updateTracksCore_two ⟨A n, tms n, true⟩ ⟨B n, tms n, true⟩
        (A (n + 1)) (B (n + 1)) (tms (n + 1)) (hA n) (hAB n) (hB n) (hBA n)
      constructor
      · unfold twoHandAssign
        rw [ih.2, hupd]
      · have : twoHandState A B tms (n + 1 + 1) =
            ((updateTracksCore (twoHandState A B tms (n + 1)).1
              (twoHandState A B tms (n + 1)).2 [A (n + 1), B (n + 1)]
              (tms (n + 1))).tracks,
             (updateTracksCore (twoHandState A B tms (n + 1)).1
              (twoHandState A B tms (n + 1)).2 [A (n + 1), B (n + 1)]
              (tms (n + 1))).nextId) := rfl
        rw [this, ih.2, hupd]

def claimC8 (A B : ℕ → ℤ × ℤ) (tms : ℕ → ℤ) : Prop :=
  (∀ n, n < 10 → 14400 < distSq (A n) (B n)) →
  ∃ a b, a ≠ b ∧ ∀ n, n < 10 → twoHandAssign A B tms n = [a, b]

/-- C8 as literally read (only per-frame separation of the two hands)
fails when one hand teleports: its track id changes from 1 to 3. -/
theorem C8_counterexample :
    ¬ claimC8 teleportA steadyB (fun k => 33 * (k : ℤ)) := by
  intro hcl
  obtain ⟨a, b, hab, hall⟩ := hcl (by decide)
  have h0 := hall 0 (by omega)
  have h4 := hall 4 (by omega)
  have e0 : twoHandAssign teleportA steadyB (fun k => 33 * (k : ℤ)) 0 = [1, 2] := by
    decide
  have e4 : twoHandAssign teleportA steadyB (fun k => 33 * (k : ℤ)) 4 = [3, 2] := by
    decide
  rw [e0] at h0
  rw [e4] at h4
  simp at h0 h4
  omega

def parA (_ : ℕ) : ℤ × ℤ := (0, 0)

def parB (_ : ℕ) : ℤ × ℤ := (1000, 0)

/-- Instance of the amended C8 on two parked hands 1000 px apart. -/
theorem C8_witness :
    (∀ n, 14400 < distSq (parA n) (parB n)) ∧
    twoHandAssign parA parB (fun k => 33 * (k : ℤ)) 9 = [1, 2] := by
  constructor
  · intro n; norm_num [distSq, parA, parB]
  · have h1 : ∀ n, distSq (parA (n + 1)) (parA n) ≤ 14400 := by
      intro n; norm_num [distSq, parA]
    have h2 : ∀ n, distSq (parB (n + 1)) (parB n) ≤ 14400 := by
      intro n; norm_num [distSq, parB]
    have h3 : ∀ n, 14400 < distSq (parA (n + 1)) (parB n) := by
      intro n; norm_num [distSq, parA, parB]
    have h4 : ∀ n, 14400 < distSq (parB (n + 1)) (parA n) := by
      intro n; norm_num [distSq, parA, parB]
    exact (C8_thm parA parB (fun k => 33 * (k : ℤ)) h1 h2 h3 h4
      (by norm_num [distSq, parA, parB]) 9).1

/-- Well-formedness of the track map: every key is below the id counter
and keys are unique (Python dict keys; ids are issued by an increasing
counter and never reused). -/
def TracksWF (ts : List (ℕ × Track)) (nid : ℕ) : Prop :=
  (∀ p ∈ ts, p.1 < nid) ∧ (ts.map (fun p => p.1)).Nodup

lemma lookupTrack_mapEntry (f : ℕ × Track → Track) (ts : List (ℕ × Track))
    (t : ℕ) :
    lookupTrack (mapEntry f ts) t =
      (lookupTrack ts t).map (fun tr => f (t, tr)) := by
  induction ts with
  | nil => rfl
  | cons p rest ih =>
      by_cases hp : p.1 = t
      · subst hp
        simp [mapEntry, lookupTrack, List.find?]
      · have hb : (p.1 == t) = false := by simp [hp]
        simp only [mapEntry, lookupTrack, List.map, List.find?, hb]
        simpa [mapEntry, lookupTrack] using ih

lemma keys_mapEntry (f : ℕ × Track → Track) (ts : List (ℕ × Track)) :
    (mapEntry f ts).map (fun p => p.1) = ts.map (fun p => p.1) := by
  simp [mapEntry, List.map_map]

lemma lookupTrack_append_left (ts ts2 : List (ℕ × Track)) (t : ℕ) (tr : Track)
    (h : lookupTrack ts t = some tr) :
    lookupTrack (ts ++ ts2) t = some tr := by
  unfold lookupTrack at h ⊢
  rw [List.find?_append]
  rcases hf : ts.find? (fun p => p.1 == t) with _ | p
  · rw [hf] at h; simp at h
  · rw [hf] at h; simp_all

lemma lookupTrack_mem_keys (ts : List (ℕ × Track)) (t : ℕ) (tr : Track)
    (h : lookupTrack ts t = some tr) : t ∈ ts.map (fun p => p.1) := by
  unfold lookupTrack at h
  rcases hf : ts.find? (fun p => p.1 == t) with _ | p
  · rw [hf] at h; simp at h
  · have hmem := List.mem_of_find?_eq_some hf
    have hkey : p.1 = t := by
      have := List.find?_some hf
      simpa using this
    subst hkey
    exact List.mem_map_of_mem _ hmem

lemma lookupTrack_of_mem_keys (ts : List (ℕ × Track)) (t : ℕ)
    (h : t ∈ ts.map (fun p => p.1)) : ∃ tr, lookupTrack ts t = some tr := by
  induction ts with
  | nil => simp at h
  | cons p rest ih =>
      by_cases hp : p.1 = t
      · exact ⟨p.2, by simp [lookupTrack, List.find?, hp]⟩
      · simp only [List.map, List.mem_cons] at h
        rcases h with h | h
        · exact absurd h.symm hp
        · obtain ⟨tr, htr⟩ := ih h
          have hb : (p.1 == t) = false := by simp [hp]
          exact ⟨tr, by simpa [lookupTrack, List.find?, hb] using htr⟩

lemma bestMatch_go (ts : List (ℕ × Track)) (c : ℤ × ℤ) :
    ∀ (l : List ℕ) (acc : Option ℕ × ℤ) (tid : ℕ),
      (l.foldl (fun acc tid =>
        match lookupTrack ts tid with
        | some tr =>
            let dsq := distSq c tr.center
            if dsq < acc.2 then (some tid, dsq) else acc
        | none => acc) acc).1 = some tid →
      acc.1 = some tid ∨ (tid ∈ l ∧ ∃ tr, lookupTrack ts tid = some tr) := by
  intro l
  induction l with
  | nil => intro acc tid h; exact Or.inl h
  | cons u rest ih =>
      intro acc tid h
      rw [List.foldl_cons] at h
      rcases ih _ tid h with h2 | h2
      · rcases hl : lookupTrack ts u with _ | tr
        · rw [hl] at h2; exact Or.inl h2
        · rw [hl] at h2
          dsimp at h2
          by_cases hd : distSq c tr.center < acc.2
          · rw [if_pos hd] at h2
            simp at h2
            subst h2
            exact Or.inr ⟨by simp, tr, hl⟩
          · rw [if_neg hd] at h2
            exact Or.inl h2
      · exact Or.inr ⟨by simp [h2.1], h2.2⟩

lemma bestMatch_some (ts : List (ℕ × Track)) (unmatched : List ℕ)
    (c : ℤ × ℤ) (tid : ℕ)
    (h : (bestMatch ts unmatched c).1 = some tid) :
    tid ∈ unmatched ∧ ∃ tr, lookupTrack ts tid = some tr := by
  rcases bestMatch_go ts c unmatched (none, (10 : ℤ) ^ 18) tid h with h2 | h2
  · simp at h2
  · exact h2

lemma lookupTrack_append_none (ts : List (ℕ × Track)) (nid : ℕ) (tr0 : Track)
    (t : ℕ) (h : lookupTrack ts t = none) :
    lookupTrack (ts ++ [(nid, tr0)]) t =
      if nid = t then some tr0 else none := by
  unfold lookupTrack at h ⊢
  rw [List.find?_append]
  rcases hf : ts.find? (fun p => p.1 == t) with _ | p
  · simp only [hf, Option.none_or]
    by_cases hn : nid = t
    · simp [List.find?, hn]
    · have hb : (nid == t) = false := by simp [hn]
      simp [List.find?, hb, hn]
  · rw [hf] at h; simp at h

/-- What one greedy pass guarantees, relative to its input track map and
unmatched-id set: armed flags of existing entries survive unchanged (and
unassigned entries survive verbatim), entries under fresh keys are armed,
the residual unmatched ids are assigned to no detection, well-formedness
is preserved and every assigned id is a key of the output map. -/
def GAspec (ts : List (ℕ × Track)) (nid : ℕ) (unmatched : List ℕ)
    (G : TrackUpd) : Prop :=
  (∀ t tr, lookupTrack ts t = some tr →
    ∃ tr2, lookupTrack G.tracks t = some tr2 ∧ tr2.armed = tr.armed ∧
      (t ∉ G.assign → tr2 = tr)) ∧
  (∀ t tr2, lookupTrack ts t = none → lookupTrack G.tracks t = some tr2 →
    tr2.armed = true) ∧
  (∀ t, t ∈ G.unmatched → t ∈ unmatched) ∧
  (∀ t, t ∈ unmatched → t ∈ G.assign → t ∉ G.unmatched) ∧
  (∀ p ∈ G.tracks, p.1 < G.nextId) ∧
  (nid ≤ G.nextId) ∧
  ((G.tracks.map (fun p => p.1)).Nodup) ∧
  G.unmatched.Nodup ∧
  (∀ t, t ∈ G.assign → ∃ tr2, lookupTrack G.tracks t = some tr2)

lemma GAspec_fresh (ts : List (ℕ × Track)) (nid : ℕ) (unmatched : List ℕ)
    (c : ℤ × ℤ) (now : ℤ) (r : TrackUpd)
    (hu : ∀ u ∈ unmatched, u < nid)
    (hk : ∀ p ∈ ts, p.1 < nid)
    (hr : GAspec (ts ++ [(nid, ⟨c, now, true⟩)]) (nid + 1) unmatched r) :
    GAspec ts nid unmatched { r with assign := nid :: r.assign } := by
  obtain ⟨r1, r2, r3, r4, r5, r6, r7, r8, r9⟩ := hr
  refine ⟨?_, ?_, r3, ?_, r5, le_trans (Nat.le_succ nid) r6, r7, r8, ?_⟩
  · intro t tr hl
    obtain ⟨tr2, h1, h2, h3⟩ := r1 t tr (lookupTrack_append_left _ _ _ _ hl)
    exact ⟨tr2, h1, h2, fun hna => h3 (fun hmem => hna (by simp [hmem]))⟩
  · intro t tr2 hnone hsome
    by_cases hn : nid = t
    · have hap : lookupTrack (ts ++ [(nid, ⟨c, now, true⟩)]) t =
          some ⟨c, now, true⟩ := by
        rw [lookupTrack_append_none ts nid _ t hnone, if_pos hn]
      obtain ⟨tr2b, h1, h2, _⟩ := r1 t _ hap
      rw [hsome] at h1
      injection h1 with h1
      rw [← h1] at h2
      exact h2
    · have hap : lookupTrack (ts ++ [(nid, ⟨c, now, true⟩)]) t = none := by
        rw [lookupTrack_append_none ts nid _ t hnone, if_neg hn]
      exact r2 t tr2 hap hsome
  · intro t htu hta
    rcases List.mem_cons.mp hta with rfl | hta2
    · exact absurd (hu t htu) (lt_irrefl t)
    · exact r4 t htu hta2
  · intro t ht
    rcases List.mem_cons.mp ht with rfl | ht2
    · have hnone : lookupTrack ts t = none := by
        rcases hl : lookupTrack ts t with _ | tr
        · rfl
        · have hmem := lookupTrack_mem_keys ts t tr hl
          obtain ⟨q, hq, hqe⟩ := List.mem_map.mp hmem
          exact absurd (hqe ▸ hk q hq) (lt_irrefl t)
      have hap : lookupTrack (ts ++ [(t, ⟨c, now, true⟩)]) t =
          some ⟨c, now, true⟩ := by
        rw [lookupTrack_append_none ts t _ t hnone, if_pos rfl]
      obtain ⟨tr2, h1, _, _⟩ := r1 t _ hap
      exact ⟨tr2, h1⟩
    · exact r9 t ht2

lemma GAspec_match (ts : List (ℕ × Track)) (nid : ℕ) (unmatched : List ℕ)
    (c : ℤ × ℤ) (now : ℤ) (tid : ℕ) (r : TrackUpd)
    (hmem : tid ∈ unmatched)
    (htr0 : ∃ tr0, lookupTrack ts tid = some tr0)
    (hund : unmatched.Nodup)
    (hr : GAspec (updateCenterSeen ts tid c now) nid (unmatched.erase tid) r) :
    GAspec ts nid unmatched { r with assign := tid :: r.assign } := by
  obtain ⟨r1, r2, r3, r4, r5, r6, r7, r8, r9⟩ := hr
  have hlook : ∀ t tr, lookupTrack ts t = some tr →
      lookupTrack (updateCenterSeen ts tid c now) t =
        some (if t = tid then (⟨c, now, tr.armed⟩ : Track) else tr) := by
    intro t tr hl
    unfold updateCenterSeen
    rw [lookupTrack_mapEntry, hl]
    by_cases ht : t = tid <;> simp [ht]
  refine ⟨?_, ?_, ?_, ?_, r5, r6, r7, r8, ?_⟩
  · intro t tr hl
    obtain ⟨tr2, h1, h2, h3⟩ := r1 t _ (hlook t tr hl)
    refine ⟨tr2, h1, ?_, ?_⟩
    · rw [h2]
      by_cases ht : t = tid <;> simp [ht]
    · intro hna
      have hne : ¬t = tid := fun ht => hna (ht ▸ List.mem_cons_self _ _)
      have := h3 (fun hmem2 => hna (List.mem_cons_of_mem _ hmem2))
      rw [this]
      simp [hne]
  · intro t tr2 hnone hsome
    have hnone2 : lookupTrack (updateCenterSeen ts tid c now) t = none := by
      unfold updateCenterSeen
      rw [lookupTrack_mapEntry, hnone]
      rfl
    exact r2 t tr2 hnone2 hsome
  · exact fun t ht => List.erase_subset _ _ (r3 t ht)
  · intro t htu hta
    by_cases ht : t = tid
    · subst ht
      intro hru
      have := r3 t hru
      exact absurd (hund.mem_erase_iff.mp this).1 (by simp)
    · rcases List.mem_cons.mp hta with h | hta2
      · exact absurd h ht
      · exact r4 t (hund.mem_erase_iff.mpr ⟨ht, htu⟩) hta2
  · intro t ht
    rcases List.mem_cons.mp ht with rfl | ht2
    · obtain ⟨tr0, htr⟩ := htr0
      obtain ⟨tr2, h1, _, _⟩ := r1 t _ (hlook t tr0 htr)
      exact ⟨tr2, h1⟩
    · exact r9 t ht2

lemma greedyAssign_spec :
    ∀ (centers : List (ℤ × ℤ)) (ts : List (ℕ × Track)) (nid : ℕ)
      (unmatched : List ℕ) (now : ℤ),
      (∀ u ∈ unmatched, u < nid) →
      (∀ p ∈ ts, p.1 < nid) →
      (ts.map (fun p => p.1)).Nodup →
      unmatched.Nodup →
      GAspec ts nid unmatched (greedyAssign ts nid unmatched now centers) := by
  intro centers
  induction centers with
  | nil =>
      intro ts nid unmatched now hu hk hnd hund
      refine ⟨?_, ?_, ?_, ?_, ?_, ?_, ?_, ?_, ?_⟩
      · exact fun t tr hl => ⟨tr, hl, rfl, fun _ => rfl⟩
      · intro t tr2 hn hs
        simp only [greedyAssign] at hs
        rw [hn] at hs
        cases hs
      · intro t ht
        simpa [greedyAssign] using ht
      · intro t htu hta
        simp [greedyAssign] at hta
      · intro p hp
        exact hk p (by simpa [greedyAssign] using hp)
      · exact le_refl _
      · simpa [greedyAssign] using hnd
      · simpa [greedyAssign] using hund
      · intro t ht
        simp [greedyAssign] at ht
  | cons c rest ih =>
      intro ts nid unmatched now hu hk hnd hund
      have hkfresh : ∀ p ∈ ts ++ [(nid, (⟨c, now, true⟩ : Track))],
          p.1 < nid + 1 := by
        intro p hp
        rcases List.mem_append.mp hp with hp | hp
        · exact lt_trans (hk p hp) (Nat.lt_succ_self nid)
        · simp only [List.mem_singleton] at hp
          rw [hp]
          exact Nat.lt_succ_self nid
      have hndfresh :
          ((ts ++ [(nid, (⟨c, now, true⟩ : Track))]).map
            (fun p => p.1)).Nodup := by
        rw [List.map_append]
        simp only [List.map]
        rw [List.nodup_append]
        refine ⟨hnd, List.nodup_singleton _, ?_⟩
        intro a ha hb
        simp only [List.mem_singleton] at hb
        obtain ⟨q, hq, hqe⟩ := List.mem_map.mp ha
        have h1 : a < nid := by rw [← hqe]; exact hk q hq
        omega
      have hufresh : ∀ u ∈ unmatched, u < nid + 1 :=
        fun u hu2 => lt_trans (hu u hu2) (Nat.lt_succ_self nid)
      rcases hb : (bestMatch ts unmatched c).1 with _ | tid
      · have hG : greedyAssign ts nid unmatched now (c :: rest) =
            { greedyAssign (ts ++ [(nid, ⟨c, now, true⟩)]) (nid + 1)
                unmatched now rest with
              assign := nid :: (greedyAssign (ts ++ [(nid, ⟨c, now, true⟩)])
                (nid + 1) unmatched now rest).assign } := by
          simp only [greedyAssign, hb]
        rw [hG]
        exact GAspec_fresh ts nid unmatched c now _ hu hk
          (ih _ _ _ now hufresh hkfresh hndfresh hund)
      · by_cases hle : (bestMatch ts unmatched c).2 ≤ 14400
        · obtain ⟨hmem, tr0, htr0⟩ := bestMatch_some _ _ _ _ hb
          have hG : greedyAssign ts nid unmatched now (c :: rest) =
              { greedyAssign (updateCenterSeen ts tid c now) nid
                  (unmatched.erase tid) now rest with
                assign := tid :: (greedyAssign (updateCenterSeen ts tid c now)
                  nid (unmatched.erase tid) now rest).assign } := by
            simp only [greedyAssign, hb, if_pos hle]
          rw [hG]
          have hkm : ∀ p ∈ updateCenterSeen ts tid c now, p.1 < nid := by
            intro p hp
            obtain ⟨q, hq, hqe⟩ := List.mem_map.mp hp
            rw [← hqe]
            exact hk q hq
          have hndm : ((updateCenterSeen ts tid c now).map
              (fun p => p.1)).Nodup := by
            unfold updateCenterSeen
            rw [keys_mapEntry]
            exact hnd
          have hum : ∀ u ∈ unmatched.erase tid, u < nid :=
            fun u hu2 => hu u (List.erase_subset _ _ hu2)
          exact GAspec_match ts nid unmatched c now tid _ hmem ⟨tr0, htr0⟩
            hund (ih _ _ _ now hum hkm hndm (hund.erase tid))
        · have hG : greedyAssign ts nid unmatched now (c :: rest) =
              { greedyAssign (ts ++ [(nid, ⟨c, now, true⟩)]) (nid + 1)
                  unmatched now rest with
                assign := nid :: (greedyAssign (ts ++ [(nid, ⟨c, now, true⟩)])
                  (nid + 1) unmatched now rest).assign } := by
            simp only [greedyAssign, hb, if_neg hle]
          rw [hG]
          exact GAspec_fresh ts nid unmatched c now _ hu hk
            (ih _ _ _ now hufresh hkfresh hndfresh hund)

lemma lookupTrack_rearmOne (ts : List (ℕ × Track)) (now : ℤ) (u t : ℕ) :
    lookupTrack (rearmOne now ts u) t =
      (lookupTrack ts t).map
        (fun tr => if t = u ∧ 400 ≤ now - tr.last_seen_ms
          then { tr with armed := true } else tr) := by
  unfold rearmOne
  rw [lookupTrack_mapEntry]
  rcases hl : lookupTrack ts t with _ | tr
  · rfl
  · simp only [Option.map_some]
    congr 1
    by_cases ht : t = u <;> by_cases htm : 400 ≤ now - tr.last_seen_ms <;>
      simp [ht, htm]

lemma keys_foldl_rearm (um : List ℕ) (ts : List (ℕ × Track)) (now : ℤ) :
    ((um.foldl (rearmOne now) ts).map (fun p => p.1)) =
      ts.map (fun p => p.1) := by
  induction um generalizing ts with
  | nil => rfl
  | cons u um ih =>
      rw [List.foldl_cons, ih]
      unfold rearmOne
      rw [keys_mapEntry]

lemma lookupTrack_foldl_rearm (um : List ℕ) (ts : List (ℕ × Track))
    (now : ℤ) (t : ℕ) :
    lookupTrack (um.foldl (rearmOne now) ts) t =
      (lookupTrack ts t).map
        (fun tr => if t ∈ um ∧ 400 ≤ now - tr.last_seen_ms
          then { tr with armed := true } else tr) := by
  induction um generalizing ts with
  | nil =>
      rcases hl : lookupTrack ts t with _ | tr <;> simp [List.foldl_nil, hl]
  | cons u um ih =>
      rw [List.foldl_cons, ih, lookupTrack_rearmOne]
      rcases lookupTrack ts t with _ | tr
      · rfl
      · by_cases ht : t = u <;> by_cases htm : 400 ≤ now - tr.last_seen_ms <;>
        by_cases hum : t ∈ um <;> simp [ht, htm, hum]

lemma updateTracksCore_spec (ts : List (ℕ × Track)) (nid : ℕ)
    (centers : List (ℤ × ℤ)) (now : ℤ) (hwf : TracksWF ts nid) :
    (∀ t tr, lookupTrack ts t = some tr → t ∈ (updateTracksCore ts nid centers now).assign →
      ∃ tr2, lookupTrack (updateTracksCore ts nid centers now).tracks t = some tr2 ∧
        tr2.armed = tr.armed) ∧
    (∀ t tr tr2, lookupTrack ts t = some tr →
      lookupTrack (updateTracksCore ts nid centers now).tracks t = some tr2 →
      tr.armed = false → tr2.armed = true →
      t ∉ (updateTracksCore ts nid centers now).assign ∧
      400 ≤ now - tr.last_seen_ms) ∧
    (∀ t tr2, lookupTrack ts t = none →
      lookupTrack (updateTracksCore ts nid centers now).tracks t = some tr2 →
      tr2.armed = true) ∧
    (∀ t, t ∈ (updateTracksCore ts nid centers now).assign →
      ∃ tr2, lookupTrack (updateTracksCore ts nid centers now).tracks t = some tr2) ∧
    (TracksWF (updateTracksCore ts nid centers now).tracks
      (updateTracksCore ts nid centers now).nextId ∧
      nid ≤ (updateTracksCore ts nid centers now).nextId) ∧
    (∀ t tr, lookupTrack ts t = some tr →
      ∃ tr2, lookupTrack (updateTracksCore ts nid centers now).tracks t = some tr2) := by
  have hu : ∀ u ∈ ts.map (fun p => p.1), u < nid := by
    intro u hu2
    obtain ⟨q, hq, hqe⟩ := List.mem_map.mp hu2
    exact hqe ▸ hwf.1 q hq
  obtain ⟨g1, g2, g3, g4, g5, g6, g7, g8, g9⟩ :=
    greedyAssign_spec centers ts nid (ts.map (fun p => p.1)) now hu hwf.1
      hwf.2 hwf.2
  set G := greedyAssign ts nid (ts.map (fun p => p.1)) now centers with hGdef
  have hU : updateTracksCore ts nid centers now =
      { G with tracks := G.unmatched.foldl (rearmOne now) G.tracks } := rfl
  rw [hU]
  refine ⟨?_, ?_, ?_, ?_, ⟨⟨?_, ?_⟩, g6⟩, ?_⟩
  · intro t tr hl hass
    obtain ⟨tr2, h1, h2, _⟩ := g1 t tr hl
    have hnu : t ∉ G.unmatched :=
      g4 t (lookupTrack_mem_keys ts t tr hl) hass
    refine ⟨tr2, ?_, h2⟩
    rw [lookupTrack_foldl_rearm, h1]
    simp [hnu]
  · intro t tr tr2 hl hl2 hfa htr2
    obtain ⟨trg, h1, h2, h3⟩ := g1 t tr hl
    rw [lookupTrack_foldl_rearm, h1] at hl2
    simp only [Option.map_some'] at hl2
    by_cases hc : t ∈ G.unmatched ∧ 400 ≤ now - trg.last_seen_ms
    · have hna : t ∉ G.assign := by
        intro hass
        exact g4 t (lookupTrack_mem_keys ts t tr hl) hass hc.1
      have htrg : trg = tr := h3 hna
      exact ⟨hna, htrg ▸ hc.2⟩
    · rw [if_neg hc] at hl2
      injection hl2 with hl2
      rw [← hl2] at htr2
      rw [h2, hfa] at htr2
      cases htr2
  · intro t tr2 hn hl2
    rw [lookupTrack_foldl_rearm] at hl2
    rcases hg : lookupTrack G.tracks t with _ | trg
    · rw [hg] at hl2; cases hl2
    · rw [hg] at hl2
      simp only [Option.map_some'] at hl2
      have harm : trg.armed = true := g2 t trg hn hg
      by_cases hc : t ∈ G.unmatched ∧ 400 ≤ now - trg.last_seen_ms
      · rw [if_pos hc] at hl2
        injection hl2 with hl2
        rw [← hl2]
      · rw [if_neg hc] at hl2
        injection hl2 with hl2
        rw [← hl2]
        exact harm
  · intro t ht
    obtain ⟨trg, hg⟩ := g9 t ht
    exact ⟨if t ∈ G.unmatched ∧ 400 ≤ now - trg.last_seen_ms
        then { trg with armed := true } else trg,
      by rw [lookupTrack_foldl_rearm, hg]; rfl⟩
  · intro p hp
    have hkeys : p.1 ∈ (G.unmatched.foldl (rearmOne now) G.tracks).map
        (fun q => q.1) := List.mem_map_of_mem _ hp
    rw [keys_foldl_rearm] at hkeys
    obtain ⟨q, hq, hqe⟩ := List.mem_map.mp hkeys
    exact hqe ▸ g5 q hq
  · rw [keys_foldl_rearm]
    exact g7
  · intro t tr hl
    obtain ⟨trg, h1, _, _⟩ := g1 t tr hl
    exact ⟨if t ∈ G.unmatched ∧ 400 ≤ now - trg.last_seen_ms
        then { trg with armed := true } else trg,
      by rw [lookupTrack_foldl_rearm, h1]; rfl⟩

lemma handFlow_tracks (s : RState) (gray : ℕ) (pts : Pts) (cxcy : ℤ × ℤ)
    (fin : FlowIn) :
    (handFlow s gray pts cxcy fin).2.tracks = s.tracks ∧
    (handFlow s gray pts cxcy fin).2.next_track_id = s.next_track_id := by
  cases fin <;> simp only [handFlow, updatePrev] <;> split_ifs <;>
    exact ⟨rfl, rfl⟩

lemma inferStep_tracks (s : RState) (pts : Pts) (w h : ℤ) (gray : ℕ)
    (fin : FlowIn) (now : ℤ) :
    (inferStep s pts w h gray fin now).2.tracks = s.tracks ∧
    (inferStep s pts w h gray fin now).2.next_track_id = s.next_track_id := by
  have hh := handFlow_tracks s gray pts (palmCenter pts) fin
  simp only [inferStep, s4Of, inferCtx]
  split_ifs <;> exact ⟨hh.1, hh.2⟩

lemma preInferState_tracks (s : RState) (fi : FrameIn) :
    (preInferState s fi).tracks = (frameTU s fi).tracks ∧
    (preInferState s fi).next_track_id = (frameTU s fi).nextId := by
  simp only [preInferState, fpsUpdate]
  repeat' split
  all_goals simp

lemma processFrame_tracks_cases (s : RState) (fi : FrameIn) :
    ((processFrame s fi).2.tracks = (frameTU s fi).tracks ∧
      (processFrame s fi).2.next_track_id = (frameTU s fi).nextId) ∨
    ((processFrame s fi).1.cmd = some Cmd.toggle ∧
     ∃ tid2, frameOwner s fi = some tid2 ∧
       (processFrame s fi).2.tracks =
         setArmedFalse (frameTU s fi).tracks tid2 ∧
       (processFrame s fi).2.next_track_id = (frameTU s fi).nextId) := by
  have hpt := preInferState_tracks s fi
  rcases hsel : (frameSel s fi).detIdx with _ | di
  · left
    simp only [processFrame, hsel]
    exact ⟨hpt.1, hpt.2⟩
  · have hit := inferStep_tracks (preInferState s fi) (fi.hands.getD di [])
      fi.w fi.h fi.gray fi.flowIn fi.now_ms
    have hres := inferStep_result (preInferState s fi) (fi.hands.getD di [])
      fi.w fi.h fi.gray fi.flowIn fi.now_ms
    rcases hg : (inferStep (preInferState s fi) (fi.hands.getD di []) fi.w
        fi.h fi.gray fi.flowIn fi.now_ms).1 with _ | gc
    · left
      simp only [processFrame, hsel, hg]
      exact ⟨hit.1.trans hpt.1, hit.2.trans hpt.2⟩
    · rcases gc with ⟨gg, cc⟩
      rcases hga : (frameTU s fi).assign.get? di with _ | tid
      · left
        cases gg <;> simp only [processFrame, hsel, hg, hga] <;>
          exact ⟨hit.1.trans hpt.1, hit.2.trans hpt.2⟩
      · cases gg
        case open_palm =>
          right
          have hcc : cc = Cmd.toggle := by
            rw [hg] at hres
            rcases hres with h | h | h | h | h | h <;> simp_all
          subst hcc
          refine ⟨?_, tid, ?_, ?_, ?_⟩
          · simp only [processFrame, hsel, hg, hga]
            rfl
          · simp only [frameOwner, hsel, hga]
          · simp only [processFrame, hsel, hg, hga]
            rw [hit.1, hpt.1]
          · simp only [processFrame, hsel, hg, hga]
            exact hit.2.trans hpt.2
        all_goals
          left
          simp only [processFrame, hsel, hg, hga]
          exact ⟨hit.1.trans hpt.1, hit.2.trans hpt.2⟩

lemma handFlow_armed (s : RState) (gray : ℕ) (pts : Pts) (cxcy : ℤ × ℤ)
    (fin : FlowIn) :
    (handFlow s gray pts cxcy fin).2.open_palm_armed = s.open_palm_armed := by
  cases fin <;> simp only [handFlow, updatePrev] <;> split_ifs <;> rfl

lemma frameTU_spec (s : RState) (fi : FrameIn)
    (hwf : TracksWF s.tracks s.next_track_id) :
    (∀ t tr, lookupTrack s.tracks t = some tr → t ∈ (frameTU s fi).assign →
      ∃ tr2, lookupTrack (frameTU s fi).tracks t = some tr2 ∧
        tr2.armed = tr.armed) ∧
    (∀ t tr tr2, lookupTrack s.tracks t = some tr →
      lookupTrack (frameTU s fi).tracks t = some tr2 →
      tr.armed = false → tr2.armed = true →
      t ∉ (frameTU s fi).assign ∧ 400 ≤ fi.now_ms - tr.last_seen_ms) ∧
    (∀ t tr2, lookupTrack s.tracks t = none →
      lookupTrack (frameTU s fi).tracks t = some tr2 → tr2.armed = true) ∧
    (∀ t, t ∈ (frameTU s fi).assign →
      ∃ tr2, lookupTrack (frameTU s fi).tracks t = some tr2) ∧
    (TracksWF (frameTU s fi).tracks (frameTU s fi).nextId ∧
      s.next_track_id ≤ (frameTU s fi).nextId) ∧
    (∀ t tr, lookupTrack s.tracks t = some tr →
      ∃ tr2, lookupTrack (frameTU s fi).tracks t = some tr2) := by
  by_cases hne : fi.hands = []
  · have hT : frameTU s fi = ⟨s.tracks, s.next_track_id, [], []⟩ := by
      simp [frameTU, hne]
    rw [hT]
    refine ⟨?_, ?_, ?_, ?_, ⟨hwf, le_refl _⟩, ?_⟩
    · intro t tr _ hass; exact absurd hass (List.not_mem_nil t)
    · intro t tr tr2 hl hl2 hfa htr2
      rw [hl] at hl2
      cases hl2
      rw [hfa] at htr2
      exact absurd htr2 (by simp)
    · intro t tr2 hl hl2
      rw [hl] at hl2
      exact absurd hl2 (by simp)
    · intro t hass; exact absurd hass (List.not_mem_nil t)
    · intro t tr hl; exact ⟨tr, hl⟩
  · have hT : frameTU s fi =
        updateTracksCore s.tracks s.next_track_id (fi.hands.map palmCenter)
          fi.now_ms := by
      simp [frameTU, hne]
    rw [hT]
    exact updateTracksCore_spec s.tracks s.next_track_id
      (fi.hands.map palmCenter) fi.now_ms hwf

lemma owner_some_elim (s : RState) (fi : FrameIn) (t : ℕ)
    (how : frameOwner s fi = some t) :
    ∃ di, (frameSel s fi).detIdx = some di ∧
      (frameTU s fi).assign.get? di = some t := by
  rcases hsel : (frameSel s fi).detIdx with _ | di
  · simp [frameOwner, hsel] at how
  · exact ⟨di, rfl, by simpa [frameOwner, hsel] using how⟩

lemma mem_of_getq {l : List ℕ} {i : ℕ} {t : ℕ} (h : l.get? i = some t) :
    t ∈ l := by
  rw [List.get?_eq_getElem?] at h
  have hi : i < l.length := by
    by_contra hlt
    rw [List.getElem?_eq_none (by omega)] at h
    cases h
  rw [List.getElem?_eq_getElem hi] at h
  cases h
  exact List.getElem_mem hi

lemma lookupTrack_setArmedFalse (ts : List (ℕ × Track)) (x t : ℕ) :
    lookupTrack (setArmedFalse ts x) t =
      (lookupTrack ts t).map
        (fun tr => if t == x then { tr with armed := false } else tr) := by
  simp [setArmedFalse, lookupTrack_mapEntry]

lemma processFrame_toggle_disarm (s : RState) (fi : FrameIn) (t : ℕ)
    (hwf : TracksWF s.tracks s.next_track_id)
    (hcmd : (processFrame s fi).1.cmd = some Cmd.toggle)
    (how : frameOwner s fi = some t) :
    trackArmed (processFrame s fi).2.tracks t = false := by
  obtain ⟨di, hsel, hget⟩ := owner_some_elim s fi t how
  have hit := inferStep_tracks (preInferState s fi) (fi.hands.getD di [])
    fi.w fi.h fi.gray fi.flowIn fi.now_ms
  have hpt := preInferState_tracks s fi
  have hres := inferStep_result (preInferState s fi) (fi.hands.getD di [])
    fi.w fi.h fi.gray fi.flowIn fi.now_ms
  rcases hg : (inferStep (preInferState s fi) (fi.hands.getD di []) fi.w
      fi.h fi.gray fi.flowIn fi.now_ms).1 with _ | gc
  · simp only [processFrame, hsel, hg] at hcmd
    exact absurd hcmd (by simp)
  · rw [hg] at hres
    have hcc : gc = (Gesture.open_palm, Cmd.toggle) := by
      simp only [processFrame, hsel, hg] at hcmd
      rcases hres with h | h | h | h | h | h <;> simp_all
    subst hcc
    simp only [processFrame, hsel, hg, hget]
    have htr : (inferStep (preInferState s fi) (fi.hands.getD di []) fi.w
        fi.h fi.gray fi.flowIn fi.now_ms).2.tracks = (frameTU s fi).tracks :=
      hit.1.trans hpt.1
    rw [htr]
    have hmem : t ∈ (frameTU s fi).assign := mem_of_getq hget
    obtain ⟨tr2, hl2⟩ := (frameTU_spec s fi hwf).2.2.2.1 t hmem
    unfold trackArmed
    rw [lookupTrack_setArmedFalse, hl2]
    simp

lemma processFrame_cmd_toggle_shape (s : RState) (fi : FrameIn)
    (hcmd : (processFrame s fi).1.cmd = some Cmd.toggle) :
    ∃ di, (frameSel s fi).detIdx = some di ∧
      (inferStep (preInferState s fi) (fi.hands.getD di []) fi.w fi.h
        fi.gray fi.flowIn fi.now_ms).1 = some (Gesture.open_palm, Cmd.toggle) := by
  rcases hsel : (frameSel s fi).detIdx with _ | di
  · simp only [processFrame, hsel] at hcmd
    exact absurd hcmd (by simp)
  · refine ⟨di, rfl, ?_⟩
    have hres := inferStep_result (preInferState s fi) (fi.hands.getD di [])
      fi.w fi.h fi.gray fi.flowIn fi.now_ms
    rcases hg : (inferStep (preInferState s fi) (fi.hands.getD di []) fi.w
        fi.h fi.gray fi.flowIn fi.now_ms).1 with _ | gc
    · simp only [processFrame, hsel, hg] at hcmd
      exact absurd hcmd (by simp)
    · rw [hg] at hres
      simp only [processFrame, hsel, hg] at hcmd
      rcases hres with h | h | h | h | h | h <;> simp_all

lemma preInferState_armed (s : RState) (fi : FrameIn) (di t : ℕ)
    (hsel : (frameSel s fi).detIdx = some di)
    (hget : (frameTU s fi).assign.get? di = some t) :
    (preInferState s fi).open_palm_armed =
      trackArmed (frameTU s fi).tracks t := by
  simp only [preInferState, fpsUpdate, hsel, hget]
  repeat' split
  all_goals simp_all

lemma inferStep_toggle_armed (s : RState) (pts : Pts) (w h : ℤ) (gray : ℕ)
    (fin : FlowIn) (now : ℤ)
    (hr : (inferStep s pts w h gray fin now).1 =
      some (Gesture.open_palm, Cmd.toggle)) :
    s.open_palm_armed = true := by
  have he := inferStep_toggle_elig s pts w h gray fin now hr
  have h4 := he.2.2.2
  simp only [inferCtx] at h4
  rw [handFlow_armed] at h4
  exact h4

lemma processFrame_matched_disarmed (s : RState) (fi : FrameIn) (t : ℕ)
    (tr : Track) (hwf : TracksWF s.tracks s.next_track_id)
    (hl : lookupTrack s.tracks t = some tr) (hfa : tr.armed = false)
    (hass : t ∈ (frameTU s fi).assign) :
    (∃ tr2, lookupTrack (processFrame s fi).2.tracks t = some tr2 ∧
      tr2.armed = false) ∧
    ¬((processFrame s fi).1.cmd = some Cmd.toggle ∧
      frameOwner s fi = some t) := by
  obtain ⟨tr2, hl2, he⟩ := (frameTU_spec s fi hwf).1 t tr hl hass
  have htr2 : tr2.armed = false := he.trans hfa
  constructor
  · rcases processFrame_tracks_cases s fi with ⟨h1, _⟩ | ⟨_, tid2, _, h1, _⟩
    · exact ⟨tr2, h1 ▸ hl2, htr2⟩
    · rw [h1, lookupTrack_setArmedFalse, hl2]
      refine ⟨_, rfl, ?_⟩
      simp only [Option.map_some']
      split_ifs <;> simp [htr2]
  · rintro ⟨hcmd, how⟩
    obtain ⟨di, hsel, hstep⟩ := processFrame_cmd_toggle_shape s fi hcmd
    obtain ⟨di2, hsel2, hget2⟩ := owner_some_elim s fi t how
    rw [hsel] at hsel2
    cases hsel2
    have harm := inferStep_toggle_armed _ _ _ _ _ _ _ hstep
    rw [preInferState_armed s fi di t hsel hget2] at harm
    simp [trackArmed, hl2, htr2] at harm

lemma processFrame_rearm_necessity (s : RState) (fi : FrameIn) (t : ℕ)
    (tr : Track) (hwf : TracksWF s.tracks s.next_track_id)
    (hl : lookupTrack s.tracks t = some tr) (hfa : tr.armed = false)
    (hpost : trackArmed (processFrame s fi).2.tracks t = true) :
    t ∉ (frameTU s fi).assign ∧ 400 ≤ fi.now_ms - tr.last_seen_ms := by
  obtain ⟨tr2, hl2⟩ := (frameTU_spec s fi hwf).2.2.2.2.2 t tr hl
  rcases processFrame_tracks_cases s fi with ⟨h1, _⟩ | ⟨_, tid2, _, h1, _⟩
  · rw [h1] at hpost
    unfold trackArmed at hpost
    rw [hl2] at hpost
    exact (frameTU_spec s fi hwf).2.1 t tr tr2 hl hl2 hfa hpost
  · rw [h1] at hpost
    unfold trackArmed at hpost
    rw [lookupTrack_setArmedFalse, hl2] at hpost
    simp only [Option.map_some'] at hpost
    by_cases hx : t = tid2
    · simp [hx] at hpost
    · simp only [beq_iff_eq, if_neg hx] at hpost
      exact (frameTU_spec s fi hwf).2.1 t tr tr2 hl hl2 hfa hpost

lemma TracksWF_mapEntry (f : ℕ × Track → Track) (ts : List (ℕ × Track))
    (nid : ℕ) (h : TracksWF ts nid) : TracksWF (mapEntry f ts) nid := by
  refine ⟨?_, ?_⟩
  · intro p hp
    obtain ⟨q, hq, hqe⟩ := List.mem_map.mp hp
    have : p.1 = q.1 := by rw [← hqe]
    rw [this]
    exact h.1 q hq
  · rw [keys_mapEntry]
    exact h.2

lemma processFrame_WF (s : RState) (fi : FrameIn)
    (hwf : TracksWF s.tracks s.next_track_id) :
    TracksWF (processFrame s fi).2.tracks
      (processFrame s fi).2.next_track_id := by
  have hT := (frameTU_spec s fi hwf).2.2.2.2.1.1
  rcases processFrame_tracks_cases s fi with ⟨h1, h2⟩ | ⟨_, tid2, _, h1, h2⟩
  · rw [h1, h2]
    exact hT
  · rw [h1, h2]
    exact TracksWF_mapEntry _ _ _ hT

lemma run_no_retrigger (s : RState) (frames : List FrameIn) (t : ℕ)
    (tr : Track) (hwf : TracksWF s.tracks s.next_track_id)
    (hl : lookupTrack s.tracks t = some tr) (hfa : tr.armed = false)
    (hmatch : ∀ i, i < frames.length →
      t ∈ (frameTU (runStates s frames i) (frames.getD i default)).assign) :
    ∀ i, i < frames.length →
      ¬((resAt s frames i).cmd = some Cmd.toggle ∧
        frameOwner (runStates s frames i) (frames.getD i default) = some t) := by
  have hinv : ∀ i, i ≤ frames.length →
      (TracksWF (runStates s frames i).tracks
          (runStates s frames i).next_track_id ∧
        ∃ tri, lookupTrack (runStates s frames i).tracks t = some tri ∧
          tri.armed = false) := by
    intro i
    induction i with
    | zero => intro _; exact ⟨hwf, tr, hl, hfa⟩
    | succ i ih =>
        intro hle
        have hlt : i < frames.length := by omega
        obtain ⟨hwfi, tri, hli, hfi⟩ := ih (by omega)
        rw [runStates_succ s frames i hlt]
        refine ⟨processFrame_WF _ _ hwfi, ?_⟩
        exact (processFrame_matched_disarmed _ _ t tri hwfi hli hfi
          (hmatch i hlt)).1
  intro i hlt
  obtain ⟨hwfi, tri, hli, hfi⟩ := hinv i (le_of_lt hlt)
  exact (processFrame_matched_disarmed _ _ t tri hwfi hli hfi
    (hmatch i hlt)).2

instance (ts : List (ℕ × Track)) (nid : ℕ) : Decidable (TracksWF ts nid) := by
  unfold TracksWF
  infer_instance


set_option maxRecDepth 40000 in
/-- C3: open-palm arming discipline.  (1) Emitting toggle disarms the
owning track; (2) while a disarmed track keeps matching on every frame,
toggle is never emitted again for it; (3) a disarmed track is re-armed
only when it went unmatched on that frame and its last match is at least
400 ms old; (4) freshly created tracks are armed; (5) after removing the
hand for over 400 ms and re-presenting it, a new toggle fires (concrete
14-frame run `rearmFrames`, toggles at frames 6 and 13). -/
theorem C3_thm :
    (∀ (s : RState) (fi : FrameIn) (t : ℕ),
      TracksWF s.tracks s.next_track_id →
      (processFrame s fi).1.cmd = some Cmd.toggle →
      frameOwner s fi = some t →
      trackArmed (processFrame s fi).2.tracks t = false) ∧
    (∀ (s : RState) (frames : List FrameIn) (t : ℕ) (tr : Track),
      TracksWF s.tracks s.next_track_id →
      lookupTrack s.tracks t = some tr → tr.armed = false →
      (∀ i, i < frames.length →
        t ∈ (frameTU (runStates s frames i) (frames.getD i default)).assign) →
      ∀ i, i < frames.length →
        ¬((resAt s frames i).cmd = some Cmd.toggle ∧
          frameOwner (runStates s frames i) (frames.getD i default) = some t)) ∧
    (∀ (s : RState) (fi : FrameIn) (t : ℕ) (tr : Track),
      TracksWF s.tracks s.next_track_id →
      lookupTrack s.tracks t = some tr → tr.armed = false →
      trackArmed (processFrame s fi).2.tracks t = true →
      t ∉ (frameTU s fi).assign ∧ 400 ≤ fi.now_ms - tr.last_seen_ms) ∧
    (∀ (s : RState) (fi : FrameIn) (t : ℕ) (tr2 : Track),
      TracksWF s.tracks s.next_track_id →
      lookupTrack s.tracks t = none →
      lookupTrack (frameTU s fi).tracks t = some tr2 → tr2.armed = true) ∧
    ((resAt (initState 0) rearmFrames 6).cmd = some Cmd.toggle ∧
      (resAt (initState 0) rearmFrames 13).cmd = some Cmd.toggle) := by
  refine ⟨?_, ?_, ?_, ?_, ?_⟩
  · intro s fi t hwf hcmd how
    exact processFrame_toggle_disarm s fi t hwf hcmd how
  · intro s frames t tr hwf hl hfa hmatch
    exact run_no_retrigger s frames t tr hwf hl hfa hmatch
  · intro s fi t tr hwf hl hfa hpost
    exact processFrame_rearm_necessity s fi t tr hwf hl hfa hpost
  · intro s fi t tr2 hwf hl hl2
    exact (frameTU_spec s fi hwf).2.2.1 t tr2 hl hl2
  · exact ⟨by decide, by decide⟩

set_option maxRecDepth 40000 in
/-- Instance of C3 part 1 on frame 6 of `rearmFrames`. -/
theorem C3_witness :
    TracksWF (runStates (initState 0) rearmFrames 6).tracks
      (runStates (initState 0) rearmFrames 6).next_track_id ∧
    (processFrame (runStates (initState 0) rearmFrames 6)
      (rearmFrames.getD 6 default)).1.cmd = some Cmd.toggle ∧
    frameOwner (runStates (initState 0) rearmFrames 6)
      (rearmFrames.getD 6 default) = some 1 ∧
    trackArmed (processFrame (runStates (initState 0) rearmFrames 6)
      (rearmFrames.getD 6 default)).2.tracks 1 = false :=
  ⟨by decide, by decide, by decide,
    C3_thm.1 (runStates (initState 0) rearmFrames 6)
      (rearmFrames.getD 6 default) 1 (by decide) (by decide) (by decide)⟩

/-- C5 (amended): a non-thumb finger is counted as extended iff its tip is
strictly more than 10 px above the PIP joint (`tip_y < pip_y - 10`,
line 253), not at least 10 px; the resulting count is at most 4. -/
theorem C5_thm :
    ∀ (pts : Pts) (tip pip : ℕ),
      (fingerUpB pts tip pip = true ↔ pty pts tip < pty pts pip - 10) ∧
      fourCount pts ≤ 4 := by
  intro pts tip pip
  refine ⟨by simp [fingerUpB], ?_⟩
  unfold fourCount
  split_ifs <;> norm_num

instance (pts : Pts) (tip pip : ℕ) : Decidable (fingerUpSpec pts tip pip) := by
  unfold fingerUpSpec
  infer_instance

/-- A tip exactly 10 px above the PIP is not counted by the code but is
counted by the spec's 'at least 10 px' reading. -/
theorem C5_counterexample :
    ¬(fingerUpB ptsBoundary 8 6 = true ↔ fingerUpSpec ptsBoundary 8 6) := by
  decide

/-- C6 (amended): the robust flow aggregate keeps the deltas within
`1.5 * max(IQR, 1e-6)` of the raw median and returns their median - the
IQR is clamped below by 1e-6 (line 125), unlike the spec's plain IQR; on
the 9-delta outlier list the 500 px outlier is rejected and the result is
2.05 px. -/
theorem C6_thm :
    (∀ values : List ℚ, robustMedian values = robustMedianSpecClamped values) ∧
    robustMedian deltasOutlier = 41 / 20 ∧
    robustMedianSpec deltasOutlier = 41 / 20 := by
  refine ⟨fun values => rfl, by decide, by decide⟩

/-- On five near-zero deltas the clamped IQR window differs from the
spec's unclamped one. -/
theorem C6_counterexample :
    robustMedian deltasTiny = 1 / 2000000 ∧
    robustMedianSpec deltasTiny = 1 / 4000000 ∧
    robustMedian deltasTiny ≠ robustMedianSpec deltasTiny := by
  refine ⟨by decide, by decide, by decide⟩

/-- C9: the flow estimator stores the current gray frame and anchors as
the previous state on every call, and returns (0,0) on the first call /
tracker failure and when no anchor survives tracking (lines 140-176). -/
theorem C9_thm :
    ∀ (s : RState) (gray : ℕ) (pts : Pts) (cxcy : ℤ × ℤ) (fin : FlowIn),
      ((handFlow s gray pts cxcy fin).2.prev_gray = some gray ∧
       (handFlow s gray pts cxcy fin).2.prev_points =
         some (anchorsOf pts cxcy)) ∧
      (fin = FlowIn.fail → (handFlow s gray pts cxcy fin).1 = (0, 0)) ∧
      (∀ results, fin = FlowIn.ok results →
        results.filter (fun r => r.1) = [] →
        (handFlow s gray pts cxcy fin).1 = (0, 0)) := by
  intro s gray pts cxcy fin
  have hne : anchorsOf pts cxcy ≠ [] := by simp [anchorsOf]
  unfold handFlow
  split_ifs with hprev
  · simp [updatePrev, hne]
  · cases fin with
    | fail => simp [updatePrev, hne]
    | ok results =>
        refine ⟨⟨?_, ?_⟩, by simp, ?_⟩
        · simp [updatePrev, hne]
        · simp [updatePrev, hne]
        · intro rs hrs hfil
          injection hrs with hrs2
          subst hrs2
          simp [hfil, robustMedian]

/-- At 1000x1000 with 20 px medians the code is not static although the
spec's 4 % floor (40 px) says it is. -/
theorem C4_counterexample :
    isStaticB 1000 1000 20 20 = false ∧ staticSpecB 1000 1000 20 20 = true := by
  decide

/-- Instance of C7's lock branch at a concrete selector state. -/
theorem C7_witness :
    ([ptsPalm] ≠ ([] : List Pts)) ∧ ((10100 : ℤ) - 10000 < 700) ∧
    ([1].findIdx? (fun t => t == 1) = some 0) ∧
    selectPrimaryCore (some 1) 10000 none [ptsPalm] [1] 640 480 10100 =
      ⟨some 0, some 1, 10000, some (palmCenter ([ptsPalm].getD 0 []))⟩ :=
  ⟨by decide, by decide, by decide,
    C7_thm.2.1 1 10000 none [ptsPalm] [1] 640 480 10100 0 (by decide)
      (by decide) (by decide)⟩

/-- Instance of C9 on a failing tracker call. -/
theorem C9_witness :
    (handFlow (initState 0) 5 ptsPalm (0, 0) FlowIn.fail).1 = (0, 0) :=
  (C9_thm (initState 0) 5 ptsPalm (0, 0) FlowIn.fail).2.1 rfl

set_option maxRecDepth 40000 in
/-- Instance of C4 on the toggle emitted at frame 6 of `rearmFrames`. -/
theorem C4_witness :
    (processFrame (runStates (initState 0) rearmFrames 6)
      (rearmFrames.getD 6 default)).1.cmd = some Cmd.toggle ∧
    isStaticB (rearmFrames.getD 6 default).w (rearmFrames.getD 6 default).h
      (frameMeds (runStates (initState 0) rearmFrames 6)
        (rearmFrames.getD 6 default)).1
      (frameMeds (runStates (initState 0) rearmFrames 6)
        (rearmFrames.getD 6 default)).2 = true :=
  ⟨by decide,
    C4_thm.2 (runStates (initState 0) rearmFrames 6)
      (rearmFrames.getD 6 default) (by decide)⟩
